import Mathlib

/-!
Verification of the Block_shifting_puzzle constraint engine and puzzle
session state machine, shallowly embedded from the Python sources
(`block.py`, `blockset.py`, `constraints.py`, `game.py`, `web/ui.py`).

Embedding conventions:
* A Python `Block` object is a Lean structure; mutation becomes functional
  update on a `List Block` held by the `BlockSet` / `SessionState`.
* `BlockSet.selected_blocks` is a Python `set` of blocks whose
  equality/hash is `(type, pos)`.  During play positions are unique, so
  set membership coincides with object identity; we model the set as the
  insertion-ordered list of block *indices* into `blocks`.
* Python floats appearing in the constraint code (`0.4`, `0.61 ** 2`,
  midpoint centres `(min+max)/2`) are embedded exactly over `Int` by
  scaling: the mirror centres are carried doubled, the sail coordinates
  in tenths.  Every value the code compares lies on those grids, where
  the float computations of the source are exact (detailed at each
  definition), so the integer model is extensionally faithful.
* Fallible Python code (IndexError on `detailed_information[i]`,
  TypeError/NameError paths in `end_drag`) is modelled in `Option`.
* Pixel-level pointer arithmetic of the UI is abstracted: the grid
  offset that `end_drag`/`update_drag` derive from the pointer delta by
  floor division is taken as an arbitrary integer-pair parameter.
-/

namespace BSP

/-- One puzzle cell, from `block.py` (`Block.__init__`).  `type` 1/2 are
the solid black/blue cells, 3 is the pyramid; `detailed_information` is
the pyramid's four face colours indexed top, bottom, left, right with
values 0 (white/none), 1 (black), 2 (blue). -/
structure Block where
  type : Nat
  pos : Int × Int
  detailed_information : List Nat
  selected : Bool
  ghost : Bool
  original_pos : Int × Int
  color : Nat × Nat × Nat
  deriving DecidableEq, Repr

instance : Inhabited Block := ⟨⟨1, (0, 0), [], false, false, (0, 0), (0, 0, 0)⟩⟩

/-- Convenience constructor mirroring `Block.__init__` defaults:
`selected=False`, `ghost=False`, `original_pos = pos`. -/
def mkBlock (type : Nat) (pos : Int × Int) (faces : List Nat := []) (sel : Bool := false) : Block :=
  ⟨type, pos, faces, sel, false, pos, (0, 0, 0)⟩

/-- The grid, from `blockset.py` (`BlockSet`): the ordered cell list plus
the selected subset, modelled as insertion-ordered indices. -/
structure BlockSet where
  blocks : List Block
  selected_blocks : List Nat
  deriving DecidableEq, Repr

/-- `BlockSet.get_all_positions`. -/
def get_all_positions (bs : BlockSet) : List (Int × Int) :=
  bs.blocks.map (·.pos)

/-- `BlockSet.get_selected_positions` (positions of set members). -/
def get_selected_positions (bs : BlockSet) : List (Int × Int) :=
  bs.selected_blocks.filterMap (fun i => (bs.blocks[i]?).map (·.pos))

/-- The BFS of `BlockSet.is_connected`: 4-neighbour flood over the
selected positions, marking positions visited as they are enqueued.
Fuel bounds the number of dequeues; `positions.length` suffices because
every enqueued position is distinct and drawn from `positions`. -/
def bfs_connected (positions : List (Int × Int)) :
    Nat → List (Int × Int) → List (Int × Int) → List (Int × Int)
  | 0, _, visited => visited
  | _ + 1, [], visited => visited
  | fuel + 1, c :: qs, visited =>
    let nbrs := [(c.1 + 1, c.2), (c.1 - 1, c.2), (c.1, c.2 + 1), (c.1, c.2 - 1)].filter
      (fun n => positions.contains n && !(visited.contains n))
    bfs_connected positions fuel (qs ++ nbrs) (visited ++ nbrs)

/-- `BlockSet.is_connected`: connectivity of the selected positions. -/
def is_connected (bs : BlockSet) : Bool :=
  if bs.selected_blocks.length ≤ 1 then true
  else
    let selected_positions := (get_selected_positions bs).dedup
    match selected_positions with
    | [] => true
    | start :: _ =>
      (bfs_connected selected_positions selected_positions.length [start] [start]).length
        == selected_positions.length

/-! ### Constraint checker (`constraints.py`) -/

/-- The dict comprehension `{block.pos: block for block in blocks}`:
on duplicate positions the later block wins, hence the reversed search. -/
def pos_to_block (blocks : List Block) (p : Int × Int) : Option Block :=
  blocks.reverse.find? (fun b => b.pos == p)

/-- `ConstraintChecker._check_glue`: fails when `get_all_positions()` is
empty (note: *all* cells, not the selected ones), else `is_connected()`. -/
def check_glue (bs : BlockSet) : Bool :=
  if (get_all_positions bs).isEmpty then false else is_connected bs

/-- Minimum of a list of integers (`min(...)` on a nonempty list;
the 0 default is unreachable behind the emptiness guards). -/
def list_min (xs : List Int) : Int :=
  match xs with
  | [] => 0
  | x :: r => r.foldl min x

/-- Maximum of a list of integers. -/
def list_max (xs : List Int) : Int :=
  match xs with
  | [] => 0
  | x :: r => r.foldl max x

/-- `ConstraintChecker._is_horizontally_symmetric_blocks`: reflect x
about `center_x = (min_x + max_x)/2`.  The source computes the float
`int(2 * center_x - x)`; since `2 * ((min + max) / 2) = min + max`
exactly in binary floating point (the halving and doubling of an
integer-valued float are exact) and `int()` of an integer-valued float
is that integer, the mirror x-coordinate is exactly `min + max − x`,
which is how it is written here.  The pyramid face-swap comparison is
guarded, exactly as in the source, by
`block.type != symmetric_block.type` *and* both types equal 3. -/
def is_horizontally_symmetric_blocks (blocks : List Block) : Bool :=
  if blocks.isEmpty then true
  else
    let x_coords := blocks.map (fun b => b.pos.1)
    blocks.all (fun b =>
      let symmetric_x : Int := list_min x_coords + list_max x_coords - b.pos.1
      let symmetric_pos : Int × Int := (symmetric_x, b.pos.2)
      match pos_to_block blocks symmetric_pos with
      | none => false
      | some sb =>
        if b.type ≠ sb.type then
          if b.type = 3 ∧ sb.type = 3 then
            if 4 ≤ b.detailed_information.length ∧ 4 ≤ sb.detailed_information.length then
              !(b.detailed_information.getD 0 0 != sb.detailed_information.getD 1 0 ||
                b.detailed_information.getD 1 0 != sb.detailed_information.getD 0 0 ||
                b.detailed_information.getD 2 0 != sb.detailed_information.getD 2 0 ||
                b.detailed_information.getD 3 0 != sb.detailed_information.getD 3 0)
            else true
          else false
        else true)

/-- `ConstraintChecker._is_vertically_symmetric_blocks`: reflect y about
`center_y`, with the (equally guarded) left/right face swap; as for the
horizontal axis, `int(2 * center_y - y)` is exactly `min + max − y`. -/
def is_vertically_symmetric_blocks (blocks : List Block) : Bool :=
  if blocks.isEmpty then true
  else
    let y_coords := blocks.map (fun b => b.pos.2)
    blocks.all (fun b =>
      let symmetric_y : Int := list_min y_coords + list_max y_coords - b.pos.2
      let symmetric_pos : Int × Int := (b.pos.1, symmetric_y)
      match pos_to_block blocks symmetric_pos with
      | none => false
      | some sb =>
        if b.type ≠ sb.type then
          if b.type = 3 ∧ sb.type = 3 then
            if 4 ≤ b.detailed_information.length ∧ 4 ≤ sb.detailed_information.length then
              !(b.detailed_information.getD 0 0 != sb.detailed_information.getD 0 0 ||
                b.detailed_information.getD 1 0 != sb.detailed_information.getD 1 0 ||
                b.detailed_information.getD 2 0 != sb.detailed_information.getD 3 0 ||
                b.detailed_information.getD 3 0 != sb.detailed_information.getD 2 0)
            else true
          else false
        else true)

/-- `ConstraintChecker._is_diagonal1_symmetric_blocks`: reflect about the
x−y diagonal.  The source forms `center_d = (min_d + max_d) / 2` (a
float that is integral or half-integral), sets
`x_sym = y + center_d`, `y_sym = x − center_d`, requires both to be
integral and looks up `(int(x_sym), int(y_sym))`.  We carry the doubled
centre `d2 = min_d + max_d` exactly: both mirrors are integral iff `d2`
is even (the float test `is_integer()` is exact here since all values
are integers or odd halves), and then
`int(x_sym) = y + d2/2`, `int(y_sym) = x − d2/2`.
Only the `type` tag is compared on this axis. -/
def is_diagonal1_symmetric_blocks (blocks : List Block) : Bool :=
  if blocks.isEmpty then true
  else
    let d_values := blocks.map (fun b => b.pos.1 - b.pos.2)
    let d2 := list_min d_values + list_max d_values
    blocks.all (fun b =>
      if d2 % 2 == 0 then
        match pos_to_block blocks (b.pos.2 + d2 / 2, b.pos.1 - d2 / 2) with
        | none => false
        | some sb => b.type == sb.type
      else false)

/-- `ConstraintChecker._is_diagonal2_symmetric_blocks`: reflect about the
x+y diagonal; with the doubled centre `s2 = min_s + max_s` the mirror of
`(x, y)` is `(s2/2 − y, s2/2 − x)`, defined when `s2` is even (same
float-exactness argument as for the other diagonal). -/
def is_diagonal2_symmetric_blocks (blocks : List Block) : Bool :=
  if blocks.isEmpty then true
  else
    let s_values := blocks.map (fun b => b.pos.1 + b.pos.2)
    let s2 := list_min s_values + list_max s_values
    blocks.all (fun b =>
      if s2 % 2 == 0 then
        match pos_to_block blocks (s2 / 2 - b.pos.2, s2 / 2 - b.pos.1) with
        | none => false
        | some sb => b.type == sb.type
      else false)

/-- `ConstraintChecker._check_mirror`: at most one block is trivially
symmetric, else any one of the four reflections suffices. -/
def check_mirror (bs : BlockSet) : Bool :=
  if bs.blocks.length ≤ 1 then true
  else
    is_horizontally_symmetric_blocks bs.blocks ||
    is_vertically_symmetric_blocks bs.blocks ||
    is_diagonal1_symmetric_blocks bs.blocks ||
    is_diagonal2_symmetric_blocks bs.blocks

/-- `ConstraintChecker._check_symmetry`: delegates to `_check_mirror`. -/
def check_symmetry (bs : BlockSet) : Bool := check_mirror bs

/-- `ConstraintChecker._check_pyramid_adjacent`.  `map_blocks` plays the
role of the `pos_to_block` dict (built from either the selected blocks
or all blocks).  A pyramid neighbour with fewer than four faces, or an
unknown `face_checked`, falls through to the final `return False`. -/
def check_pyramid_adjacent (p : Int × Int) (requirement : Nat) (map_blocks : List Block)
    (is_movement_stage : Bool) (face_checked : String) : Bool :=
  if requirement == 0 && (pos_to_block map_blocks p).isNone then true
  else
    match pos_to_block map_blocks p with
    | some adjacent_block =>
      if adjacent_block.type == 1 || adjacent_block.type == 2 then
        (requirement == 1 && adjacent_block.type == 1) ||
        (requirement == 2 && adjacent_block.type == 2)
      else if adjacent_block.type = 3 ∧ 4 ≤ adjacent_block.detailed_information.length then
        if face_checked = "bottom" then
          adjacent_block.detailed_information.getD 0 0 == requirement
        else if face_checked = "top" then
          adjacent_block.detailed_information.getD 1 0 == requirement
        else if face_checked = "right" then
          adjacent_block.detailed_information.getD 2 0 == requirement
        else if face_checked = "left" then
          adjacent_block.detailed_information.getD 3 0 == requirement
        else false
      else false
    | none =>
      if is_movement_stage then
        if (face_checked = "top" ∨ face_checked = "bottom" ∨ face_checked = "left" ∨
            face_checked = "right") ∧ requirement ≠ 0 then false
        else true
      else true

/-- The four face checks shared by the selection/movement pyramid passes. -/
def pyramid_faces_ok (b : Block) (map_blocks : List Block) (strict : Bool) : Bool :=
  let d := b.detailed_information
  check_pyramid_adjacent (b.pos.1, b.pos.2 - 1) (d.getD 0 0) map_blocks strict "top" &&
  check_pyramid_adjacent (b.pos.1, b.pos.2 + 1) (d.getD 1 0) map_blocks strict "bottom" &&
  check_pyramid_adjacent (b.pos.1 - 1, b.pos.2) (d.getD 2 0) map_blocks strict "left" &&
  check_pyramid_adjacent (b.pos.1 + 1, b.pos.2) (d.getD 3 0) map_blocks strict "right"

/-- `ConstraintChecker._check_pyramid_selection`: only the blocks whose
`selected` flag is set are checked, against the selected blocks only,
with `is_movement_stage=False`. -/
def check_pyramid_selection (bs : BlockSet) : Bool :=
  let sel := bs.blocks.filter (·.selected)
  if sel.isEmpty then true
  else sel.all (fun b =>
    if b.type = 3 ∧ 4 ≤ b.detailed_information.length then pyramid_faces_ok b sel false
    else true)

/-- `ConstraintChecker._check_pyramid_movement`: every pyramid in the
grid against the whole grid, with `is_movement_stage=True`. -/
def check_pyramid_movement (bs : BlockSet) : Bool :=
  if bs.blocks.isEmpty then true
  else bs.blocks.all (fun b =>
    if b.type = 3 ∧ 4 ≤ b.detailed_information.length then
      pyramid_faces_ok b bs.blocks true
    else true)

/-- `ConstraintChecker._check_pyramid` (the base table entry): the
movement-stage check. -/
def check_pyramid (bs : BlockSet) : Bool := check_pyramid_movement bs

/-! ### Sail constraint -/

/-!
Sail coordinates.  `_check_sail` works with float coordinates: a blue
solid cell contributes its (integer) position, a blue pyramid face a
node offset by `0.4` toward that face.  We store these coordinates
exactly, in integer tenths (`(x, y)` becomes `(10x, 10y)`, the offset
`0.4` becomes `4`).  Every coordinate the code can produce is an
integer number of tenths, and on those values the float comparisons of
the source are exact:
* `d² <= 0.61 ** 2` on true squared distance `D/100` (with `D : ℤ` in
  hundredths) holds iff `D ≤ 37` — the reachable `D` stay far enough
  from `37.21` that rounding of the non-representable `0.4`/`0.3721`
  never flips the comparison;
* `d² == 1` in the integer-coordinate branch compares exact integers;
* `point == int(point)` holds iff the tenth-coordinate is divisible
  by 10 (face nodes sit at `±4 mod 10`, never integral).
-/

/-- The sail nodes contributed by one cell (coordinates in tenths), in
the source's append order: the cell itself for type 2, then one
0.4-offset node per blue face of a pyramid.  A type-3 cell indexes
`detailed_information[0..3]` unconditionally, so fewer than four faces
raises IndexError (`none`). -/
def cell_sail_nodes (b : Block) : Option (List (Int × Int)) :=
  let base : List (Int × Int) := if b.type == 2 then [(10 * b.pos.1, 10 * b.pos.2)] else []
  if b.type == 3 then
    match b.detailed_information[0]?, b.detailed_information[1]?,
          b.detailed_information[2]?, b.detailed_information[3]? with
    | some f0, some f1, some f2, some f3 =>
      some (base ++
        (if f0 == 2 then [(10 * b.pos.1, 10 * b.pos.2 - 4)] else []) ++
        (if f1 == 2 then [(10 * b.pos.1, 10 * b.pos.2 + 4)] else []) ++
        (if f2 == 2 then [(10 * b.pos.1 - 4, 10 * b.pos.2)] else []) ++
        (if f3 == 2 then [(10 * b.pos.1 + 4, 10 * b.pos.2)] else []))
    | _, _, _, _ => none
  else some base

/-- All sail nodes of the grid, in block order. -/
def sail_nodes (blocks : List Block) : Option (List (Int × Int)) :=
  blocks.foldlM (fun acc b => do
    let ns ← cell_sail_nodes b
    pure (acc ++ ns)) []

/-- The adjacency test of `_check_sail` in tenth-coordinates: squared
distance (in hundredths) at most `0.61² · 100`, or — only when `point`
has integer (i.e. tenth-divisible) coordinates — exactly `1 · 100`. -/
def sail_adjacent (point neighbor : Int × Int) : Bool :=
  let d2 := (point.1 - neighbor.1) ^ 2 + (point.2 - neighbor.2) ^ 2
  if d2 ≤ 37 then true
  else if point.1 % 10 == 0 && point.2 % 10 == 0 then d2 == 100
  else false

/-- `adjacency[point]`: the neighbours list built from the node list. -/
def sail_adjacency (nodes : List (Int × Int)) (point : Int × Int) : List (Int × Int) :=
  nodes.filter (sail_adjacent point)

/-- The BFS of `_check_sail`: nodes are marked visited when dequeued,
and the queue may hold duplicates, so the fuel bounds total enqueues:
`1 + n²` suffices (each of at most `n` expansions enqueues at most `n`). -/
def sail_bfs (nodes : List (Int × Int)) :
    Nat → List (Int × Int) → List (Int × Int) → List (Int × Int)
  | 0, _, visited => visited
  | _ + 1, [], visited => visited
  | fuel + 1, c :: qs, visited =>
    if visited.contains c then sail_bfs nodes fuel qs visited
    else
      let visited' := visited ++ [c]
      sail_bfs nodes fuel (qs ++ (sail_adjacency nodes c).filter (fun n => !(visited'.contains n))) visited'

/-- `ConstraintChecker._check_sail`: build the node set, pass trivially
below two nodes, else check the BFS from `nodes[0]` reaches them all. -/
def check_sail (bs : BlockSet) : Option Bool := do
  let nodes ← sail_nodes bs.blocks
  if nodes.length < 2 then pure true
  else
    match nodes with
    | [] => pure true
    | n0 :: _ =>
      pure ((sail_bfs nodes ((nodes.length + 1) * (nodes.length + 1)) [n0] []).length
              == nodes.length)

/-! ### `check_constraints` dispatch -/

/-- The base table lookup `self.constraints[name](blockset)` with the
unknown-name default `True`. -/
def eval_base_constraint (bs : BlockSet) (name : String) : Option Bool :=
  if name = "glue" then some (check_glue bs)
  else if name = "mirror" then some (check_mirror bs)
  else if name = "symmetry" then some (check_symmetry bs)
  else if name = "pyramid" then some (check_pyramid bs)
  else if name = "sail" then check_sail bs
  else some true

/-- One iteration of `ConstraintChecker.check_constraints`: the base
call followed by the six stage-specific overrides, in source order.
Note that only the name `"mirror"` is forced to pass at the selection
stage; `"symmetry"` is not mentioned there. -/
def eval_constraint_at_stage (bs : BlockSet) (name stage : String) : Option Bool := do
  let base ← eval_base_constraint bs name
  let r1 := if name = "mirror" ∧ stage = "selection" then true else base
  let r2 := if name = "glue" ∧ stage = "movement" then true else r1
  let r3 := if name = "pyramid" ∧ stage = "selection" then check_pyramid_selection bs else r2
  let r4 := if name = "pyramid" ∧ stage = "movement" then check_pyramid_movement bs else r3
  let r5 ← if name = "sail" ∧ stage = "movement" then check_sail bs else some r4
  let r6 := if name = "sail" ∧ stage = "selection" then true else r5
  pure r6

/-- Insertion into the `results` dict: overwrite an existing key, else
append (Python dicts preserve first-insertion order). -/
def dict_insert (d : List (String × Bool)) (k : String) (v : Bool) : List (String × Bool) :=
  if d.any (fun p => p.1 == k) then d.map (fun p => if p.1 == k then (k, v) else p)
  else d ++ [(k, v)]

/-- `ConstraintChecker.check_constraints`. -/
def check_constraints (bs : BlockSet) (constraint_names : List String) (stage : String) :
    Option (List (String × Bool)) :=
  constraint_names.foldlM (fun acc n => do
    let v ← eval_constraint_at_stage bs n stage
    pure (dict_insert acc n v)) []

/-- The failing-name extraction the UI and game both use:
`[name for name, result in results.items() if not result]`. -/
def failed_names (results : List (String × Bool)) : List String :=
  (results.filter (fun p => !p.2)).map (·.1)

/-! ### Puzzle session (`game.py` + `web/ui.py`) -/

/-- One undo/redo snapshot, from `Game._save_state`: per-block
`(pos, selected)` pairs plus the `selection_confirmed` flag. -/
structure HEntry where
  blocks_state : List ((Int × Int) × Bool)
  state_confirmed : Bool
  deriving DecidableEq, Repr

instance : Inhabited HEntry := ⟨⟨[], false⟩⟩

/-- The combined mutable state of `Game` and `UI` that the session
operations touch.  `*_set` booleans stand for "the Python attribute is
not `None`" (a pixel pair is always truthy); the level-layout constants
(`margins`, `grid_w/h`) come from the loaded level. -/
structure SessionState where
  bs : BlockSet
  selection_confirmed : Bool
  failed_constraints : List String
  history : List HEntry
  history_index : Int
  dragging : Bool
  moving_blocks : Bool
  move_start_set : Bool
  drag_start_set : Bool
  drag_end_set : Bool
  original_positions : Option (List (Int × Int))
  original_colors : Option (List (Nat × Nat × Nat))
  temp_blocks : Option (List Block)
  offset_limits : Option (Int × Int × Int × Int)
  margin_left : Int
  margin_top : Int
  margin_right : Int
  margin_bottom : Int
  grid_w : Int
  grid_h : Int
  deriving DecidableEq, Repr

/-- In-place update of one list element (Python attribute assignment on
the i-th object). -/
def list_modify (l : List α) (i : Nat) (f : α → α) : List α :=
  match l, i with
  | [], _ => []
  | x :: xs, 0 => f x :: xs
  | x :: xs, n + 1 => x :: list_modify xs n f

/-- Per-index rewrite of a list (a Python loop assigning through
`enumerate`). -/
def list_map_idx (l : List α) (f : Nat → α → α) : List α :=
  match l with
  | [] => []
  | x :: xs => f 0 x :: list_map_idx xs (fun i => f (i + 1))

/-- The snapshot `Game._save_state` records. -/
def snapshotEntry (s : SessionState) : HEntry :=
  ⟨s.bs.blocks.map (fun b => (b.pos, b.selected)), s.selection_confirmed⟩

/-- Python slice `l[:n]` for a possibly negative `n`. -/
def pySliceTo (l : List α) (n : Int) : List α :=
  if 0 ≤ n then l.take n.toNat else l.take ((l.length : Int) + n).toNat

/-- Python slice `l[-n:]`. -/
def pyTailSlice (l : List α) (n : Nat) : List α :=
  l.drop (l.length - n)

/-- Python `l[i]` for a nonnegative index (the session only indexes the
history at in-range nonnegative cursors). -/
def pyIndex (l : List HEntry) (i : Int) : HEntry :=
  l.getD i.toNat default

/-- `Game._save_state`: truncate the redo tail, append the snapshot,
point the cursor at the tip, and cap the buffer at 20 entries. -/
def save_state (s : SessionState) : SessionState :=
  let state := snapshotEntry s
  let h1 := pySliceTo s.history (s.history_index + 1) ++ [state]
  let i1 : Int := (h1.length : Int) - 1
  if 20 < h1.length then
    let h2 := pyTailSlice h1 20
    { s with history := h2, history_index := (h2.length : Int) - 1 }
  else
    { s with history := h1, history_index := i1 }

/-- `BlockSet.select_block` plus the `on_selection_change` callback
(registered to `Game._save_state`).  The Python membership guard
`block in self.blocks` becomes index validity. -/
def select_block (s : SessionState) (i : Nat) : SessionState :=
  if i < s.bs.blocks.length then
    let bs' : BlockSet :=
      { blocks := list_modify s.bs.blocks i (fun b => { b with selected := true }),
        selected_blocks :=
          if s.bs.selected_blocks.contains i then s.bs.selected_blocks
          else s.bs.selected_blocks ++ [i] }
    save_state { s with bs := bs' }
  else s

/-- `BlockSet.deselect_block` plus the callback. -/
def deselect_block (s : SessionState) (i : Nat) : SessionState :=
  if s.bs.selected_blocks.contains i then
    let bs' : BlockSet :=
      { blocks := list_modify s.bs.blocks i (fun b => { b with selected := false }),
        selected_blocks := s.bs.selected_blocks.filter (fun j => j != i) }
    save_state { s with bs := bs' }
  else s

/-- `BlockSet.clear_selection` plus the (single) callback: the flags of
the set members are cleared, then the set is emptied. -/
def clear_selection (s : SessionState) : SessionState :=
  let bs' : BlockSet :=
    { blocks := list_map_idx s.bs.blocks
        (fun j b => if s.bs.selected_blocks.contains j then { b with selected := false } else b),
      selected_blocks := [] }
  save_state { s with bs := bs' }

/-- First index of a block at `p` (the lookup loop of
`Game._handle_mouse_down`). -/
def find_block_index (blocks : List Block) (p : Int × Int) : Option Nat :=
  (go 0 blocks) where
  go (k : Nat) : List Block → Option Nat
    | [] => none
    | b :: bsr => if b.pos == p then some k else go (k + 1) bsr

/-- The selection-phase branch of `Game._handle_mouse_down`: toggle the
clicked cell and clear any displayed constraint failures. -/
def toggle_cell (s : SessionState) (p : Int × Int) : SessionState :=
  match find_block_index s.bs.blocks p with
  | none => s
  | some i =>
    let s' := if s.bs.selected_blocks.contains i then deselect_block s i else select_block s i
    { s' with failed_constraints := [] }

/-- `BlockSet.select_blocks_in_area`: select every block inside the
inclusive rectangle (each selection fires the snapshot callback). -/
def select_blocks_in_area (s : SessionState) (start_pos end_pos : Int × Int) : SessionState :=
  let min_x := min start_pos.1 end_pos.1
  let min_y := min start_pos.2 end_pos.2
  let max_x := max start_pos.1 end_pos.1
  let max_y := max start_pos.2 end_pos.2
  (List.range s.bs.blocks.length).foldl (fun st i =>
    match st.bs.blocks[i]? with
    | some b =>
      if min_x ≤ b.pos.1 ∧ b.pos.1 ≤ max_x ∧ min_y ≤ b.pos.2 ∧ b.pos.2 ≤ max_y then
        select_block st i
      else st
    | none => st) s

/-- The confirm-button pipeline: `UI.handle_click`'s selection-stage
evaluation followed by `Game._confirm_selection` (which is a no-op when
nothing is selected, leaving `selection_confirmed` already set). -/
def handle_confirm_click (s : SessionState) (constraint_names : List String) :
    Option SessionState := do
  let results ← check_constraints s.bs constraint_names "selection"
  let failed_now := failed_names results
  if failed_now.isEmpty then
    let s1 := { s with selection_confirmed := true, failed_constraints := [] }
    if s1.bs.selected_blocks.isEmpty then pure s1
    else
      let s2 := save_state s1
      pure { s2 with failed_constraints := [] }
  else
    pure { s with selection_confirmed := false, failed_constraints := failed_now }

/-- Positions of the selected blocks in set order
(`[block.pos for block in self.current_blockset.selected_blocks]`). -/
def selected_positions_list (bs : BlockSet) : List (Int × Int) :=
  bs.selected_blocks.filterMap (fun i => (bs.blocks[i]?).map (·.pos))

/-- `UI.start_drag`: mark the drag, and when a selection exists, record
the original positions/colours, build the ghost copies, precompute the
offset limits, and flag the selected blocks as ghosts. -/
def start_drag (s : SessionState) : SessionState :=
  let s := { s with dragging := true, drag_start_set := true, drag_end_set := true }
  if s.bs.selected_blocks.isEmpty then s
  else
    let orig := selected_positions_list s.bs
    let temp : List Block := s.bs.selected_blocks.filterMap (fun i =>
      (s.bs.blocks[i]?).map (fun b => mkBlock b.type b.pos b.detailed_information))
    let colors := s.bs.selected_blocks.filterMap (fun i => (s.bs.blocks[i]?).map (·.color))
    let lims := orig.foldl (fun (acc : Option (Int × Int × Int × Int)) op =>
      let left_limit := -s.margin_left - op.1
      let right_limit := (s.grid_w - s.margin_right - 1) - op.1
      let top_limit := -s.margin_top - op.2
      let bottom_limit := (s.grid_h - s.margin_bottom - 1) - op.2
      match acc with
      | none => some (left_limit, right_limit, top_limit, bottom_limit)
      | some (a, b, c, d) =>
        some (min a left_limit, max b right_limit, min c top_limit, max d bottom_limit)) none
    let blocks' := list_map_idx s.bs.blocks (fun j b =>
      if s.bs.selected_blocks.contains j then { b with selected := true, ghost := true } else b)
    { s with moving_blocks := true, move_start_set := true,
             original_positions := some orig,
             temp_blocks := some temp,
             original_colors := some colors,
             offset_limits := lims,
             bs := { s.bs with blocks := blocks' } }

/-- Candidate position inside the legal bounds
(`-margin ≤ c < extent - margin`). -/
def in_bounds (s : SessionState) (nx ny : Int) : Bool :=
  !(nx < -s.margin_left || s.grid_w - s.margin_right ≤ nx ||
    ny < -s.margin_top || s.grid_h - s.margin_bottom ≤ ny)

/-- Collision of a candidate position with a non-selected block. -/
def overlap_unselected (s : SessionState) (p : Int × Int) : Bool :=
  s.bs.blocks.enum.any (fun x => !(s.bs.selected_blocks.contains x.1) && x.2.pos == p)

/-- Collision with a non-selected, non-ghost block (the variant used by
`end_drag`'s second validity pass). -/
def overlap_unselected_nonghost (s : SessionState) (p : Int × Int) : Bool :=
  s.bs.blocks.enum.any (fun x =>
    !(s.bs.selected_blocks.contains x.1) && !x.2.ghost && x.2.pos == p)

/-- `UI.update_drag`, with the raw grid offset (pointer delta after
floor division by the cell size) as the parameter `g`.  Only the ghost
copies are moved; the real blocks and the selection are untouched.
Index errors while pairing the selection with `original_positions`
surface as `none`. -/
def update_drag (s : SessionState) (g : Int × Int) : Option SessionState :=
  if !s.moving_blocks || !s.move_start_set ||
     (s.original_positions.getD []).isEmpty then some s
  else do
    let orig ← s.original_positions
    let (mnx, mxx, mny, mxy) := s.offset_limits.getD (0, 0, 0, 0)
    let gx := max (min g.1 mxx) mnx
    let gy := max (min g.2 mxy) mny
    let is_valid ← s.bs.selected_blocks.enum.foldlM (fun (acc : Bool) ki => do
      if acc then do
        let p ← orig[ki.1]?
        let nx := p.1 + gx
        let ny := p.2 + gy
        pure (in_bounds s nx ny && !(overlap_unselected s (nx, ny)))
      else pure acc) true
    let temp ← s.temp_blocks
    let temp' ← (temp.enum.mapM (fun (it : Nat × Block) => do
      let p ← orig[it.1]?
      pure { it.2 with pos := (p.1 + gx, p.2 + gy), selected := true, ghost := true,
                       color := if is_valid then (144, 238, 144) else (255, 182, 193) }))
    pure { s with temp_blocks := some temp' }

/-- `UI.end_drag`, first validity pass: every original position moved by
the raw grid offset must stay in bounds and avoid the unselected blocks
(iterates `original_positions` directly). -/
def ed_valid1 (s : SessionState) (g : Int × Int) : Option Bool :=
  if s.moving_blocks && s.move_start_set then
    match s.original_positions with
    | none => none
    | some orig =>
      some (orig.all (fun op =>
        let nx := op.1 + g.1
        let ny := op.2 + g.2
        in_bounds s nx ny && !(overlap_unselected s (nx, ny))))
  else some false

/-- `UI.end_drag`, revert-or-area-select step: on an invalid move the
selected blocks are snapped back to `original_positions`; on a valid move
before confirmation the drag rectangle re-selects. -/
def ed_revert (s : SessionState) (valid1 : Bool)
    (area : (Int × Int) × (Int × Int)) : Option SessionState :=
  if !valid1 then
    if s.bs.selected_blocks.isEmpty then some s
    else do
      let orig ← s.original_positions
      s.bs.selected_blocks.enum.foldlM (fun st ki => do
        let p ← orig[ki.1]?
        pure { st with bs := { st.bs with
          blocks := list_modify st.bs.blocks ki.2 (fun b => { b with pos := p }) } }) s
  else if s.dragging && s.drag_start_set && s.drag_end_set && !s.selection_confirmed then
    some (select_blocks_in_area s area.1 area.2)
  else some s

/-- `UI.end_drag`, second validity pass (ghost-aware collision test);
`none` models the NameError when the grid offset was never computed. -/
def ed_valid2 (s2 : SessionState) (gdef : Bool) (g : Int × Int) : Option Bool :=
  if s2.bs.selected_blocks.isEmpty then some false
  else if !gdef then none
  else
    match s2.original_positions with
    | none => none
    | some orig =>
      s2.bs.selected_blocks.enum.foldlM (fun (acc : Bool) ki => do
        if acc then do
          let p ← orig[ki.1]?
          let nx := p.1 + g.1
          let ny := p.2 + g.2
          pure (in_bounds s2 nx ny && !(overlap_unselected_nonghost s2 (nx, ny)))
        else pure acc) true

/-- `UI.end_drag`, apply-or-restore step: each selected block (while the
recorded colour list lasts) gets its colour back, its position from the
ghost copy (valid move) or from `original_positions` (invalid move), and
`selected = ghost = False`. -/
def ed_apply (s2 : SessionState) (valid2 : Bool) : Option SessionState :=
  if !s2.bs.selected_blocks.isEmpty && s2.original_colors.isSome then
    let colors := s2.original_colors.getD []
    s2.bs.selected_blocks.enum.foldlM (fun st ki => do
      if ki.1 < colors.length then do
        let c := colors.getD ki.1 (0, 0, 0)
        let newPos ←
          if valid2 then do
            let temp ← s2.temp_blocks
            (temp[ki.1]?).map (·.pos)
          else do
            let orig ← s2.original_positions
            orig[ki.1]?
        pure { st with bs := { st.bs with
          blocks := list_modify st.bs.blocks ki.2 (fun b =>
            { b with color := c, pos := newPos, selected := false, ghost := false }) } }
      else pure st) s2
  else some s2

/-- `UI.end_drag`, with the raw grid offset `g` (defined only while a
block-move is in progress, mirroring the Python local variable) and the
grid-converted drag rectangle `area`.  `none` models the TypeError /
NameError / IndexError paths of the source. -/
def end_drag (s : SessionState) (g : Int × Int) (area : (Int × Int) × (Int × Int)) :
    Option SessionState := do
  let gdef := s.moving_blocks && s.move_start_set
  let valid1 ← ed_valid1 s g
  let s2 ← ed_revert s valid1 area
  let valid2 ← ed_valid2 s2 gdef g
  let s4 ← ed_apply s2 valid2
  pure { s4 with dragging := false, moving_blocks := false,
                 drag_start_set := false, drag_end_set := false, move_start_set := false,
                 original_positions := none, temp_blocks := none }

/-- `Game._reset_level`: home every block, clear the selection (which
fires one snapshot callback), leave the selecting phase, and wipe the
history and the failure display. -/
def reset_level (s : SessionState) : SessionState :=
  let s1 := { s with bs := { s.bs with
    blocks := s.bs.blocks.map (fun b => { b with pos := b.original_pos }) } }
  let s2 := clear_selection s1
  { s2 with selection_confirmed := false, moving_blocks := false,
            history := [], history_index := -1, failed_constraints := [] }

/-- `Game._restore_state`: write the snapshot's positions and flags back
onto the first `len(blocks)` entries and resync the selection set. -/
def restore_state (s : SessionState) (e : HEntry) : SessionState :=
  let blocks' := list_map_idx s.bs.blocks (fun i b =>
    match e.blocks_state[i]? with
    | some (p, sel) => { b with pos := p, selected := sel }
    | none => b)
  let sel' := (List.range (min e.blocks_state.length s.bs.blocks.length)).foldl
    (fun (acc : List Nat) i =>
      match e.blocks_state[i]? with
      | some (_, true) => if acc.contains i then acc else acc ++ [i]
      | some (_, false) => acc.filter (fun j => j != i)
      | none => acc) s.bs.selected_blocks
  { s with bs := { blocks := blocks', selected_blocks := sel' },
           selection_confirmed := e.state_confirmed, failed_constraints := [] }

/-- `Game._undo`: step the cursor back, restore, and force the
selecting phase. -/
def undo (s : SessionState) : SessionState :=
  if 0 < s.history_index then
    let i := s.history_index - 1
    let s1 := restore_state { s with history_index := i } (pyIndex s.history i)
    { s1 with selection_confirmed := false, failed_constraints := [] }
  else s

/-- `Game._redo`: step the cursor forward, restore, and force the
selecting phase. -/
def redo (s : SessionState) : SessionState :=
  if s.history_index < (s.history.length : Int) - 1 then
    let i := s.history_index + 1
    let s1 := restore_state { s with history_index := i } (pyIndex s.history i)
    { s1 with selection_confirmed := false, failed_constraints := [] }
  else s

/-- `Game._handle_mouse_up`: finish the drag, then — only once the
selection was confirmed — run the movement-stage evaluation and either
complete the level or revert via `_reset_level`, re-publishing the
failing names after the reset wiped them. -/
def handle_mouse_up (s : SessionState) (g : Int × Int) (area : (Int × Int) × (Int × Int))
    (constraint_names : List String) : Option SessionState := do
  if !s.dragging then some s
  else do
    let s1 ← end_drag s g area
    let s1 := { s1 with move_start_set := false, original_positions := some [] }
    if s1.selection_confirmed then do
      let results ← check_constraints s1.bs constraint_names "movement"
      let failed := failed_names results
      if failed.isEmpty then
        pure { s1 with failed_constraints := [] }
      else
        let s3 := reset_level { s1 with failed_constraints := failed }
        pure { s3 with failed_constraints := failed }
    else pure s1

/-- The flag/set agreement invariant of the spec's data model: a cell's
`selected` flag holds exactly when the cell is a member of the selected
set. -/
def flags_match_selection (bs : BlockSet) : Prop :=
  ∀ i, (h : i < bs.blocks.length) →
    ((bs.blocks.get ⟨i, h⟩).selected = true ↔ i ∈ bs.selected_blocks)

instance (bs : BlockSet) : Decidable (flags_match_selection bs) := by
  unfold flags_match_selection
  exact Nat.decidableBallLT _ _

/-! ### Concrete scenarios used in the theorems below -/

/-- A freshly loaded session over the given cell list
(`Game._load_level` / `UI.load_level` state). -/
def initState (blocks : List Block) : SessionState :=
  { bs := ⟨blocks, []⟩, selection_confirmed := false, failed_constraints := [],
    history := [], history_index := -1, dragging := false, moving_blocks := false,
    move_start_set := false, drag_start_set := false, drag_end_set := false,
    original_positions := none, original_colors := none, temp_blocks := none,
    offset_limits := none,
    margin_left := 0, margin_top := 0, margin_right := 0, margin_bottom := 0,
    grid_w := 16, grid_h := 11 }

/-- One unselected solid cell: the empty-selection scenario for `glue`. -/
def glue_bug_bs : BlockSet := ⟨[mkBlock 1 (0, 0)], []⟩

/-- The same grid wrapped in a fresh session. -/
def glue_bug_session : SessionState := initState [mkBlock 1 (0, 0)]

/-- Four same-type cells with no axis of symmetry (an L of length 3 with
a stem), used to observe the `symmetry` name at the selection stage. -/
def asym_bs : BlockSet :=
  ⟨[mkBlock 1 (0, 0), mkBlock 1 (1, 0), mkBlock 1 (2, 0), mkBlock 1 (0, 1)], []⟩

/-- Two pyramids in mirror position whose face data violates the
claimed top/bottom swap (both have a black top face). -/
def pyr_mirror_pair : List Block :=
  [mkBlock 3 (0, 0) [1, 0, 0, 0], mkBlock 3 (1, 0) [1, 0, 0, 0]]

/-- Two vertically mirrored pyramids whose face data violates the
claimed left/right swap (both have a black left face). -/
def pyr_mirror_pair_v : List Block :=
  [mkBlock 3 (0, 0) [0, 0, 1, 0], mkBlock 3 (0, 1) [0, 0, 1, 0]]

/-- A single selected pyramid demanding a black cell above, with the top
neighbour empty. -/
def pyr_missing_bs : BlockSet := ⟨[mkBlock 3 (0, 0) [1, 0, 0, 0] true], [0]⟩

/-- Two blue solid cells at distance 1. -/
def sail_adjacent_bs : BlockSet := ⟨[mkBlock 2 (0, 0), mkBlock 2 (1, 0)], []⟩

/-- Two blue solid cells at distance 2 with nothing between. -/
def sail_gap_bs : BlockSet := ⟨[mkBlock 2 (0, 0), mkBlock 2 (2, 0)], []⟩

/-- A single blue solid cell (one sail node). -/
def sail_single_bs : BlockSet := ⟨[mkBlock 2 (0, 0)], []⟩

/-- A type-3 cell whose face array has length 1: the sail IndexError
input. -/
def sail_short_faces_bs : BlockSet := ⟨[mkBlock 3 (0, 0) [2]], []⟩

/-- The undo/redo scenario: one cell, selected by a click (which
snapshots), then confirmed. -/
def c4_s1 : SessionState := toggle_cell (initState [mkBlock 1 (0, 0)]) (0, 0)

/-- The state just after the successful `ConfirmSelection`. -/
def c4_s2 : SessionState := (handle_confirm_click c4_s1 ["glue"]).getD c4_s1

/-- The moving-phase state the drag operations act on: the confirmed
session with the drag bookkeeping of `start_drag` in place. -/
def c5_pre : SessionState := start_drag c4_s2

/-- The state after releasing the drag in place. -/
def c5_post : SessionState := (end_drag c5_pre (0, 0) ((0, 0), (0, 0))).getD c5_pre

/-- A confirmed, mid-drag session whose grid fails `sail` at the
movement stage (two blue cells at distance 2). -/
def c6_pre : SessionState :=
  start_drag ((handle_confirm_click
    (toggle_cell (initState [mkBlock 2 (0, 0), mkBlock 2 (2, 0)]) (0, 0)) ["sail"]).getD
      (initState []))

/-- The session just after `UI.end_drag` inside the failing mouse-up. -/
def c6_mid : SessionState :=
  (end_drag c6_pre (0, 0) ((0, 0), (0, 0))).getD c6_pre

/-- The session after the failing `EndDrag`. -/
def c6_post : SessionState :=
  (handle_mouse_up c6_pre (0, 0) ((0, 0), (0, 0)) ["sail"]).getD c6_pre

/-! ### General lemmas about the embedding's list primitives -/

theorem length_list_modify (l : List α) (i : Nat) (f : α → α) :
    (list_modify l i f).length = l.length := by
  induction l generalizing i with
  | nil => rfl
  | cons x xs ih =>
    cases i with
    | zero => rfl
    | succ n => simpa [list_modify] using ih n

theorem getElem?_list_modify (l : List α) (i : Nat) (f : α → α) (j : Nat) :
    (list_modify l i f)[j]? = if j = i then (l[j]?).map f else l[j]? := by
  induction l generalizing i j with
  | nil => simp [list_modify]
  | cons x xs ih =>
    cases i with
    | zero =>
      cases j with
      | zero => simp [list_modify]
      | succ m => simp [list_modify]
    | succ n =>
      cases j with
      | zero => simp [list_modify]
      | succ m => simpa [list_modify] using ih n m

theorem length_list_map_idx (l : List α) (f : Nat → α → α) :
    (list_map_idx l f).length = l.length := by
  induction l generalizing f with
  | nil => rfl
  | cons x xs ih => simpa [list_map_idx] using ih _

theorem getElem?_list_map_idx (l : List α) (f : Nat → α → α) (j : Nat) :
    (list_map_idx l f)[j]? = (l[j]?).map (f j) := by
  induction l generalizing f j with
  | nil => simp [list_map_idx]
  | cons x xs ih =>
    cases j with
    | zero => simp [list_map_idx]
    | succ m => simpa [list_map_idx] using ih _ m

theorem mem_enum_of_mem {a : α} : ∀ (l : List α) (n : Nat), a ∈ l →
    ∃ k, (k, a) ∈ l.enumFrom n
  | _ :: xs, n, h => by
    rcases List.mem_cons.mp h with rfl | h'
    · exact ⟨n, by simp [List.enumFrom]⟩
    · obtain ⟨k, hk⟩ := mem_enum_of_mem xs (n + 1) h'
      exact ⟨k, by simp [List.enumFrom, hk]⟩

/-! ### C1: glue with an empty selection -/

/-- C1.  The claim says `glue` at the selection stage is false whenever
the selected set is empty, and that `ConfirmSelection` with an empty
selection and `glue` required always fails reporting `["glue"]`.  The
code instead tests `get_all_positions()` — all cells, not the selected
ones — so on a non-empty grid with nothing selected `glue` evaluates
`is_connected()`, which is vacuously true for at most one selected
cell: the constraint passes, the confirm click succeeds
(`selection_confirmed` becomes true) and no failure is reported.  This
contradicts `_check_glue`'s own docstring (the *selected* blocks must
be non-empty and connected). -/
theorem glue_empty_selection_passes :
    check_glue glue_bug_bs = true ∧
    check_constraints glue_bug_bs ["glue"] "selection" = some [("glue", true)] ∧
    (handle_confirm_click glue_bug_session ["glue"]).isSome = true ∧
    ((handle_confirm_click glue_bug_session ["glue"]).getD glue_bug_session).selection_confirmed
      = true ∧
    ((handle_confirm_click glue_bug_session ["glue"]).getD glue_bug_session).failed_constraints
      = [] := by
  decide

/-! ### C2: `symmetry` is not stage-gated like `mirror` -/

/-- C2 counterexample.  The claim says the names `mirror` and
`symmetry` behave identically and both always pass at the selection
stage; but `check_constraints` forces only the literal name `"mirror"`
to true there, so `"symmetry"` runs the full mirror check and fails on
an asymmetric grid at the selection stage. -/
theorem symmetry_selection_not_forced :
    eval_constraint_at_stage asym_bs "symmetry" "selection" = some false ∧
    check_constraints asym_bs ["symmetry"] "selection" = some [("symmetry", false)] ∧
    eval_constraint_at_stage asym_bs "mirror" "selection" = some true := by
  decide

/-- C2 amended.  `mirror` and `symmetry` share the underlying check
(`_check_symmetry` delegates to `_check_mirror`) and agree at the
movement stage, and `mirror` is forced to pass at the selection stage;
but `symmetry` at the selection stage evaluates the full mirror check
rather than being forced to true. -/
theorem mirror_symmetry_stage_gating :
    (∀ bs, eval_constraint_at_stage bs "mirror" "selection" = some true) ∧
    (∀ bs, eval_constraint_at_stage bs "symmetry" "movement"
            = eval_constraint_at_stage bs "mirror" "movement") ∧
    (∀ bs, eval_constraint_at_stage bs "symmetry" "selection" = some (check_mirror bs)) :=
  ⟨fun _ => rfl, fun _ => rfl, fun _ => rfl⟩

/-! ### C3: the pyramid face-swap check is dead code -/

/-- C3.  The claim requires the Axis A (x-reflection) check to fail a
Pyramid-vs-Pyramid mirrored pair whose face data violates the
top/bottom swap, and Axis B to fail the analogous left/right-swap
violation.  In the code the face comparison sits behind
`block.type != symmetric_block.type` *and* both types equal 3 — an
unsatisfiable guard — so both axes compare the `type` tag only: the
violating pairs pass.  The final two conjuncts exhibit the violated
swap conditions (mirrored top ≠ original bottom; mirrored left ≠
original right). -/
theorem pyramid_face_swap_unreachable :
    is_horizontally_symmetric_blocks pyr_mirror_pair = true ∧
    is_vertically_symmetric_blocks pyr_mirror_pair_v = true ∧
    (pyr_mirror_pair.getD 1 default).detailed_information.getD 0 0 ≠
      (pyr_mirror_pair.getD 0 default).detailed_information.getD 1 0 ∧
    (pyr_mirror_pair_v.getD 1 default).detailed_information.getD 2 0 ≠
      (pyr_mirror_pair_v.getD 0 default).detailed_information.getD 3 0 := by
  decide

/-! ### C7: pyramid colour requirement with a missing neighbour -/

/-- C7.  For a coloured face requirement whose neighbouring position is
unoccupied, `_check_pyramid_adjacent` passes with
`is_movement_stage=False` (selection) and fails with `True` (movement);
in particular the single pyramid with `faces[top]=ColorA` and an empty
top neighbour passes the pyramid constraint at the selection stage and
fails it at the movement stage. -/
theorem pyramid_missing_neighbor_phases (p : Int × Int) (req : Nat) (m : List Block)
    (face : String)
    (hreq : req = 1 ∨ req = 2)
    (hface : face = "top" ∨ face = "bottom" ∨ face = "left" ∨ face = "right")
    (hmiss : pos_to_block m p = none) :
    (check_pyramid_adjacent p req m false face = true ∧
     check_pyramid_adjacent p req m true face = false) ∧
    eval_constraint_at_stage pyr_missing_bs "pyramid" "selection" = some true ∧
    eval_constraint_at_stage pyr_missing_bs "pyramid" "movement" = some false := by
  refine ⟨?_, by decide, by decide⟩
  unfold check_pyramid_adjacent
  rw [hmiss]
  rcases hreq with rfl | rfl <;> rcases hface with rfl | rfl | rfl | rfl <;> simp

/-- Witness for C7 at a concrete input: requirement ColorA (1), face
"top", empty grid map. -/
theorem pyramid_missing_neighbor_phases_witness :
    (check_pyramid_adjacent (0, -1) 1 [] false "top" = true ∧
     check_pyramid_adjacent (0, -1) 1 [] true "top" = false) ∧
    eval_constraint_at_stage pyr_missing_bs "pyramid" "selection" = some true ∧
    eval_constraint_at_stage pyr_missing_bs "pyramid" "movement" = some false :=
  pyramid_missing_neighbor_phases (0, -1) 1 [] "top" (Or.inl rfl) (Or.inl rfl) rfl

/-! ### C8: sail distance rules -/

/-- C8.  Two blue solid cells at (0,0) and (1,0) pass `sail` at the
movement stage (integer-node squared distance exactly 1); at (0,0) and
(2,0) with nothing between they fail; and any grid producing fewer than
two sail nodes passes trivially. -/
theorem sail_connectivity_examples :
    check_sail sail_adjacent_bs = some true ∧
    check_sail sail_gap_bs = some false ∧
    (∀ (bs : BlockSet) (ns : List (Int × Int)),
       sail_nodes bs.blocks = some ns → ns.length < 2 → check_sail bs = some true) := by
  refine ⟨by decide, by decide, ?_⟩
  intro bs ns h hlen
  unfold check_sail
  rw [h]
  simp [Option.bind, hlen]

/-- Witness for C8's trivial-pass clause: a single blue cell yields one
node and passes. -/
theorem sail_connectivity_examples_witness :
    check_sail sail_single_bs = some true :=
  sail_connectivity_examples.2.2 sail_single_bs [(0, 0)] (by decide) (by decide)

/-! ### C10: totality of the sail evaluation -/

theorem cell_sail_nodes_isSome (b : Block) :
    (cell_sail_nodes b).isSome = true ↔
      (b.type = 3 → 4 ≤ b.detailed_information.length) := by
  unfold cell_sail_nodes
  by_cases h : b.type = 3
  · rcases hd : b.detailed_information with _ | ⟨x0, _ | ⟨x1, _ | ⟨x2, _ | ⟨x3, rest⟩⟩⟩⟩ <;>
      simp [h, hd]
  · simp [h]

theorem sail_nodes_isSome (blocks : List Block) :
    (sail_nodes blocks).isSome = true ↔
      ∀ b ∈ blocks, (cell_sail_nodes b).isSome = true := by
  unfold sail_nodes
  suffices h : ∀ acc : List (Int × Int),
      (List.foldlM (fun acc b => do
        let ns ← cell_sail_nodes b
        pure (acc ++ ns)) acc blocks).isSome = true ↔
        ∀ b ∈ blocks, (cell_sail_nodes b).isSome = true from h []
  induction blocks with
  | nil => simp
  | cons b rest ih =>
    intro acc
    rw [List.foldlM_cons]
    cases hc : cell_sail_nodes b with
    | none => simp [hc, Option.bind]
    | some ns => simpa [hc, Option.bind] using ih (acc ++ ns)

theorem check_sail_isSome (bs : BlockSet) :
    (check_sail bs).isSome = true ↔ (sail_nodes bs.blocks).isSome = true := by
  unfold check_sail
  cases h : sail_nodes bs.blocks with
  | none => simp [h, Option.bind]
  | some ns =>
    simp only [h, Option.isSome_some, iff_true]
    by_cases h2 : ns.length < 2
    · simp [Option.bind, h2]
    · cases ns with
      | nil => simp [Option.bind]
      | cons n0 rest =>
        by_cases h3 : rest.length + 1 < 2
        · simp [h3]
        · simp [h3]

/-! ### Reset and the failing end-of-drag -/

theorem mem_list_map_idx {l : List α} {f : Nat → α → α} {b : α} (h : b ∈ list_map_idx l f) :
    ∃ j x, x ∈ l ∧ b = f j x := by
  induction l generalizing f with
  | nil => cases h
  | cons x xs ih =>
    rcases List.mem_cons.mp h with rfl | h'
    · exact ⟨0, x, List.mem_cons_self _ _, rfl⟩
    · obtain ⟨j, y, hy, hb⟩ := ih h'
      exact ⟨j + 1, y, List.mem_cons_of_mem _ hy, hb⟩

/-- `Game._save_state` leaves the grid untouched. -/
theorem save_state_bs (s : SessionState) : (save_state s).bs = s.bs := by
  unfold save_state
  dsimp only
  split <;> rfl

/-- The grid after `clear_selection`: member flags cleared, set
emptied. -/
theorem clear_selection_bs (s : SessionState) :
    (clear_selection s).bs = ⟨list_map_idx s.bs.blocks
      (fun j b => if s.bs.selected_blocks.contains j then { b with selected := false } else b),
      []⟩ := by
  unfold clear_selection
  rw [save_state_bs]

/-- `Game._reset_level` homes every cell, empties the selection, leaves
the selecting phase and wipes history and failure display. -/
theorem reset_level_spec (st : SessionState) :
    (∀ b ∈ (reset_level st).bs.blocks, b.pos = b.original_pos) ∧
    (reset_level st).bs.selected_blocks = [] ∧
    (reset_level st).history = [] ∧
    (reset_level st).history_index = -1 ∧
    (reset_level st).selection_confirmed = false ∧
    (reset_level st).failed_constraints = [] := by
  have hbs : (reset_level st).bs = ⟨list_map_idx
      (st.bs.blocks.map (fun c => { c with pos := c.original_pos }))
      (fun j b => if st.bs.selected_blocks.contains j then { b with selected := false } else b),
      []⟩ := by
    show (clear_selection { st with bs := { st.bs with
      blocks := st.bs.blocks.map (fun b => { b with pos := b.original_pos }) } }).bs = _
    rw [clear_selection_bs]
  refine ⟨?_, by rw [hbs], rfl, rfl, rfl, rfl⟩
  intro b hb
  rw [hbs] at hb
  obtain ⟨j, x, hx, hbx⟩ := mem_list_map_idx hb
  obtain ⟨y, _, hyx⟩ := List.mem_map.mp hx
  subst hbx
  by_cases hc : st.bs.selected_blocks.contains j
  · simp only [hc, if_true, ← hyx]
  · simp only [hc, Bool.false_eq_true, if_false, ← hyx]

/-- C6.  When the movement-stage evaluation after `end_drag` has at
least one failing constraint, the mouse-up handler reverts every cell
to its `origin_position`, clears the selection, discards the history,
returns to the selecting phase (`confirmed=false`), and publishes
exactly the names that evaluated false
(`[name for name, result in results.items() if not result]`). -/
theorem end_drag_failure_reverts (s s₁ sf : SessionState) (g : Int × Int)
    (area : (Int × Int) × (Int × Int)) (cs : List String) (results : List (String × Bool))
    (hdrag : s.dragging = true)
    (hend : end_drag s g area = some s₁)
    (hconf : s₁.selection_confirmed = true)
    (heval : check_constraints s₁.bs cs "movement" = some results)
    (hfail : ¬ (failed_names results).isEmpty = true)
    (hres : handle_mouse_up s g area cs = some sf) :
    sf.failed_constraints = failed_names results ∧
    (∀ b ∈ sf.bs.blocks, b.pos = b.original_pos) ∧
    sf.bs.selected_blocks = [] ∧
    sf.history = [] ∧ sf.history_index = -1 ∧
    sf.selection_confirmed = false := by
  unfold handle_mouse_up at hres
  rw [hdrag] at hres
  simp only [Bool.not_true, Bool.false_eq_true, if_false, Option.bind_eq_bind, hend,
    Option.some_bind] at hres
  rw [if_pos hconf, heval] at hres
  simp only [Option.some_bind] at hres
  rw [if_neg hfail] at hres
  have hsf := (Option.some.inj hres).symm
  subst hsf
  obtain ⟨hpos, hsel, hh, hi, hc, _⟩ :=
    reset_level_spec { s₁ with move_start_set := false, original_positions := some [], failed_constraints := failed_names results }
  exact ⟨rfl, hpos, hsel, hh, hi, hc⟩

/-- Witness for C6: the concrete two-cell `sail` session, whose
movement evaluation fails with `["sail"]`. -/
theorem end_drag_failure_reverts_witness :
    c6_post.failed_constraints = failed_names [("sail", false)] ∧
    (∀ b ∈ c6_post.bs.blocks, b.pos = b.original_pos) ∧
    c6_post.bs.selected_blocks = [] ∧
    c6_post.history = [] ∧ c6_post.history_index = -1 ∧
    c6_post.selection_confirmed = false :=
  end_drag_failure_reverts c6_pre c6_mid c6_post (0, 0) ((0, 0), (0, 0)) ["sail"]
    [("sail", false)] (by decide) (by decide) (by decide) (by decide) (by decide) (by decide)

/-! ### Restoring a snapshot of the current state is the identity -/

theorem restore_fold_const (blocks : List Block) (sel : List Nat) (c : Bool)
    (hinv : ∀ i (h : i < blocks.length), ((blocks.get ⟨i, h⟩).selected = true ↔ i ∈ sel)) :
    ∀ n, n ≤ blocks.length →
      (List.range n).foldl (fun (acc : List Nat) i =>
        match (HEntry.mk (blocks.map (fun b => (b.pos, b.selected))) c).blocks_state[i]? with
        | some (_, true) => if acc.contains i then acc else acc ++ [i]
        | some (_, false) => acc.filter (fun j => j != i)
        | none => acc) sel = sel := by
  intro n
  induction n with
  | zero => intro _; rfl
  | succ m ih =>
    intro hm
    rw [List.range_succ, List.foldl_append, ih (Nat.le_of_succ_le hm)]
    have hmlt : m < blocks.length := hm
    simp only [List.foldl_cons, List.foldl_nil, List.getElem?_map,
      List.getElem?_eq_getElem hmlt, Option.map_some']
    cases hsel : blocks[m].selected with
    | true =>
      have hmem : m ∈ sel := (hinv m hmlt).mp hsel
      simp only [hsel]
      rw [if_pos (List.elem_eq_true_of_mem hmem)]
    | false =>
      have hmem : m ∉ sel := fun hc => by
        have h2 : blocks[m].selected = true := (hinv m hmlt).mpr hc
        rw [h2] at hsel
        exact Bool.noConfusion hsel
      simp only [hsel]
      exact List.filter_eq_self.mpr (fun a ha =>
        bne_iff_ne.mpr (fun he => hmem (by rw [← he]; exact ha)))

/-- Restoring the snapshot of a state's very own grid leaves the grid
unchanged (positions and flags are rewritten to themselves; under the
flag/set invariant the selection resync is also the identity). -/
theorem restore_snapshot_bs (st : SessionState) (c : Bool)
    (hinv : flags_match_selection st.bs) :
    (restore_state st ⟨st.bs.blocks.map (fun b => (b.pos, b.selected)), c⟩).bs = st.bs := by
  unfold restore_state
  have hblocks : list_map_idx st.bs.blocks (fun i b =>
      match (HEntry.mk (st.bs.blocks.map (fun b => (b.pos, b.selected))) c).blocks_state[i]? with
      | some (p, sel) => { b with pos := p, selected := sel }
      | none => b) = st.bs.blocks := by
    apply List.ext_getElem?
    intro n
    rw [getElem?_list_map_idx]
    cases hn : st.bs.blocks[n]? with
    | none => simp [hn]
    | some b =>
      simp only [hn, List.getElem?_map, Option.map_some']
  have hsel : (List.range (min (st.bs.blocks.map (fun b => (b.pos, b.selected))).length
      st.bs.blocks.length)).foldl (fun (acc : List Nat) i =>
        match (HEntry.mk (st.bs.blocks.map (fun b => (b.pos, b.selected))) c).blocks_state[i]? with
        | some (_, true) => if acc.contains i then acc else acc ++ [i]
        | some (_, false) => acc.filter (fun j => j != i)
        | none => acc) st.bs.selected_blocks = st.bs.selected_blocks := by
    have hlen : min (st.bs.blocks.map (fun b => (b.pos, b.selected))).length
        st.bs.blocks.length = st.bs.blocks.length := by simp
    rw [hlen]
    exact restore_fold_const st.bs.blocks st.bs.selected_blocks c hinv st.bs.blocks.length
      (Nat.le_refl _)
  simp only [hblocks, hsel]

/-! ### C4: undo and redo around a confirmed selection -/

/-- C4 counterexample.  In the concrete one-cell session, select and
confirm, then undo (restoring `confirmed=false` and the selection, as
the claim says) and redo: `_redo` restores the snapshot whose
`state_confirmed` is true but then forces `selection_confirmed=False`,
so the confirmed state is *not* restored — the claim's Redo clause is
false at this input. -/
theorem redo_confirm_counterexample :
    (handle_confirm_click c4_s1 ["glue"]).isSome = true ∧
    c4_s2.selection_confirmed = true ∧
    (undo c4_s2).selection_confirmed = false ∧
    (undo c4_s2).bs.selected_blocks = [0] ∧
    (redo (undo c4_s2)).history_index = 1 ∧
    (pyIndex (redo (undo c4_s2)).history 1).state_confirmed = true ∧
    (redo (undo c4_s2)).selection_confirmed = false := by
  decide

/-- C4 amended.  Starting from a state whose history tip snapshots the
current (pre-confirm, `Selecting`) state, after a successful
`ConfirmSelection`: Undo restores `confirmed=false` together with the
pre-confirm grid (positions, flags and selection); Redo then moves the
cursor back onto the confirm snapshot — whose stored flag is
`confirmed=true` — and restores its positions and flags, but forces
`confirmed=false` instead of restoring the confirmed state. -/
theorem undo_redo_after_confirm (s s₂ : SessionState) (cs : List String)
    (hconf : handle_confirm_click s cs = some s₂)
    (hok : s₂.selection_confirmed = true)
    (hsel : s.bs.selected_blocks.isEmpty = false)
    (hcf : s.selection_confirmed = false)
    (hinv : flags_match_selection s.bs)
    (h0 : 0 ≤ s.history_index)
    (h18 : s.history_index ≤ 18)
    (hlt : s.history_index < (s.history.length : Int))
    (hsnap : pyIndex s.history s.history_index = snapshotEntry s) :
    (undo s₂).selection_confirmed = false ∧
    (undo s₂).bs = s.bs ∧
    (redo (undo s₂)).selection_confirmed = false ∧
    (redo (undo s₂)).bs = s.bs ∧
    (pyIndex (redo (undo s₂)).history
      (redo (undo s₂)).history_index).state_confirmed = true := by
  classical
  -- identify the successful-confirm result
  have hs2 : s₂ = { save_state { s with selection_confirmed := true, failed_constraints := [] }
      with failed_constraints := [] } := by
    unfold handle_confirm_click at hconf
    cases hr : check_constraints s.bs cs "selection" with
    | none => rw [hr] at hconf; exact absurd hconf (by simp)
    | some r =>
      rw [hr] at hconf
      simp only [Option.bind_eq_bind, Option.some_bind] at hconf
      by_cases hf : (failed_names r).isEmpty
      · rw [if_pos hf] at hconf
        rw [if_neg (show ¬(({ s with selection_confirmed := true, failed_constraints := [] }
            : SessionState).bs.selected_blocks.isEmpty = true) from fun h => by
          have h' : s.bs.selected_blocks.isEmpty = true := h
          rw [h'] at hsel
          exact Bool.noConfusion hsel)] at hconf
        exact (Option.some.inj hconf).symm
      · rw [if_neg hf] at hconf
        rw [← Option.some.inj hconf] at hok
        simp at hok
  set n := s.history_index.toNat with hn
  have hidx : s.history_index = (n : Int) := (Int.toNat_of_nonneg h0).symm
  have hnlen : n < s.history.length := by omega
  have hn18 : n ≤ 18 := by omega
  set e1 : HEntry := ⟨s.bs.blocks.map (fun b => (b.pos, b.selected)), true⟩ with he1
  have htlen : (s.history.take (n + 1)).length = n + 1 := by
    rw [List.length_take]; omega
  have harg : (0 : Int) ≤ s.history_index + 1 := by omega
  have htoNat1 : (s.history_index + 1).toNat = n + 1 := by omega
  have hlen20 : ¬ 20 < (s.history.take (n + 1) ++ [snapshotEntry
      { s with selection_confirmed := true, failed_constraints := [] }]).length := by
    simp only [List.length_append, List.length_take, List.length_singleton]
    omega
  have e_hist : s₂.history = s.history.take (n + 1) ++ [e1] := by
    rw [hs2]
    show (save_state { s with selection_confirmed := true, failed_constraints := [] }).history
      = _
    unfold save_state pySliceTo
    rw [if_pos harg, htoNat1, if_neg hlen20]
    rfl
  have e_idx : s₂.history_index = (n : Int) + 1 := by
    rw [hs2]
    show (save_state { s with selection_confirmed := true, failed_constraints := [] }).history_index
      = _
    unfold save_state pySliceTo
    rw [if_pos harg, htoNat1, if_neg hlen20]
    show ((s.history.take (n + 1) ++ [snapshotEntry
      { s with selection_confirmed := true, failed_constraints := [] }]).length : Int) - 1 = _
    simp only [List.length_append, htlen, List.length_singleton]
    push_cast
    omega
  have e_bs : s₂.bs = s.bs := by
    rw [hs2]
    show (save_state { s with selection_confirmed := true, failed_constraints := [] }).bs = s.bs
    unfold save_state pySliceTo
    rw [if_pos harg, htoNat1, if_neg hlen20]
  -- the entry the undo restores is the tip snapshot = snapshot of s
  have hentry_undo : pyIndex s₂.history (s₂.history_index - 1) = snapshotEntry s := by
    rw [e_hist, e_idx]
    unfold pyIndex
    have htoNat : ((n : Int) + 1 - 1).toNat = n := by omega
    rw [htoNat]
    have hget : (s.history.take (n + 1) ++ [e1])[n]? = s.history[n]? := by
      rw [List.getElem?_append, htlen, if_pos (by omega), List.getElem?_take,
        if_pos (by omega)]
    rw [List.getD_eq_getElem?_getD, hget, ← List.getD_eq_getElem?_getD]
    exact hsnap
  have hundo_if : (0 : Int) < s₂.history_index := by rw [e_idx]; omega
  have hu : undo s₂ = { restore_state { s₂ with history_index := s₂.history_index - 1 }
      (pyIndex s₂.history (s₂.history_index - 1)) with
        selection_confirmed := false, failed_constraints := [] } := by
    unfold undo
    rw [if_pos hundo_if]
  have hu_bs : (undo s₂).bs = s.bs := by
    rw [hu, hentry_undo]
    show (restore_state { s₂ with history_index := s₂.history_index - 1 } (snapshotEntry s)).bs
      = s.bs
    have hbs' : ({ s₂ with history_index := s₂.history_index - 1 } : SessionState).bs = s.bs :=
      e_bs
    unfold snapshotEntry
    rw [hcf]
    calc (restore_state { s₂ with history_index := s₂.history_index - 1 }
        ⟨s.bs.blocks.map (fun b => (b.pos, b.selected)), false⟩).bs
        = (restore_state { s₂ with history_index := s₂.history_index - 1 }
            ⟨({ s₂ with history_index := s₂.history_index - 1 } : SessionState).bs.blocks.map
              (fun b => (b.pos, b.selected)), false⟩).bs := by rw [hbs']
      _ = ({ s₂ with history_index := s₂.history_index - 1 } : SessionState).bs :=
            restore_snapshot_bs _ false (by rw [hbs']; exact hinv)
      _ = s.bs := hbs'
  have hu_hist : (undo s₂).history = s₂.history := by rw [hu]; rfl
  have hu_idx : (undo s₂).history_index = (n : Int) := by
    rw [hu]
    show s₂.history_index - 1 = (n : Int)
    rw [e_idx]; omega
  have hredo_if : (undo s₂).history_index < ((undo s₂).history.length : Int) - 1 := by
    rw [hu_idx, hu_hist, e_hist]
    simp only [List.length_append, htlen, List.length_singleton]
    omega
  have hentry_redo : pyIndex (undo s₂).history ((undo s₂).history_index + 1) = e1 := by
    rw [hu_hist, hu_idx, e_hist]
    unfold pyIndex
    have htoNat : ((n : Int) + 1).toNat = n + 1 := by omega
    rw [htoNat]
    have hget2 : (s.history.take (n + 1) ++ [e1])[n + 1]? = some e1 := by
      have hc := List.getElem?_concat_length (s.history.take (n + 1)) e1
      rwa [htlen] at hc
    rw [List.getD_eq_getElem?_getD, hget2, Option.getD_some]
  have hr : redo (undo s₂) = { restore_state
      { undo s₂ with history_index := (undo s₂).history_index + 1 }
      (pyIndex (undo s₂).history ((undo s₂).history_index + 1)) with
        selection_confirmed := false, failed_constraints := [] } := by
    unfold redo
    rw [if_pos hredo_if]
  have hr_bs : (redo (undo s₂)).bs = s.bs := by
    rw [hr, hentry_redo]
    have hbs' : ({ undo s₂ with history_index := (undo s₂).history_index + 1 }
        : SessionState).bs = s.bs := hu_bs
    show (restore_state { undo s₂ with history_index := (undo s₂).history_index + 1 } e1).bs
      = s.bs
    rw [he1]
    calc (restore_state { undo s₂ with history_index := (undo s₂).history_index + 1 }
        ⟨s.bs.blocks.map (fun b => (b.pos, b.selected)), true⟩).bs
        = (restore_state { undo s₂ with history_index := (undo s₂).history_index + 1 }
            ⟨({ undo s₂ with history_index := (undo s₂).history_index + 1 }
              : SessionState).bs.blocks.map (fun b => (b.pos, b.selected)), true⟩).bs := by
          rw [hbs']
      _ = ({ undo s₂ with history_index := (undo s₂).history_index + 1 } : SessionState).bs :=
            restore_snapshot_bs _ true (by rw [hbs']; exact hinv)
      _ = s.bs := hbs'
  refine ⟨by rw [hu], hu_bs, by rw [hr], hr_bs, ?_⟩
  have hr_hist : (redo (undo s₂)).history = s₂.history := by rw [hr]; exact hu_hist
  have hr_idx : (redo (undo s₂)).history_index = (n : Int) + 1 := by
    rw [hr]
    show (undo s₂).history_index + 1 = (n : Int) + 1
    rw [hu_idx]
  rw [hr_hist, hr_idx, ← hu_idx, ← hu_hist, hentry_redo]

/-- Witness for C4's amended statement, at the concrete one-cell
session. -/
theorem undo_redo_after_confirm_witness :
    (undo c4_s2).selection_confirmed = false ∧
    (undo c4_s2).bs = c4_s1.bs ∧
    (redo (undo c4_s2)).selection_confirmed = false ∧
    (redo (undo c4_s2)).bs = c4_s1.bs ∧
    (pyIndex (redo (undo c4_s2)).history
      (redo (undo c4_s2)).history_index).state_confirmed = true :=
  undo_redo_after_confirm c4_s1 c4_s2 ["glue"] (by decide) (by decide) (by decide)
    (by decide) (by decide) (by decide) (by decide) (by decide) (by decide)

/-! ### C9: bounded history with tip cursor and redo-tail truncation -/

/-- C9.  After every snapshot the history holds at most 20 entries, the
cursor points at the newest entry (which is the snapshot just taken),
and the stored history is a suffix of "the entries up to the cursor
plus the new snapshot" — the redo tail beyond the cursor is discarded,
and the drop accounts for the capacity eviction of the oldest
entries. -/
theorem save_state_history_spec (s : SessionState) (h : -1 ≤ s.history_index) :
    (save_state s).history.length ≤ 20 ∧
    (save_state s).history_index = ((save_state s).history.length : Int) - 1 ∧
    (save_state s).history.getLast? = some (snapshotEntry s) ∧
    ∃ k, (save_state s).history =
      (s.history.take (s.history_index + 1).toNat ++ [snapshotEntry s]).drop k := by
  have hslice : pySliceTo s.history (s.history_index + 1)
      = s.history.take (s.history_index + 1).toNat := by
    unfold pySliceTo
    rw [if_pos (by omega)]
  unfold save_state
  rw [hslice]
  set e := snapshotEntry s with he
  set t := s.history.take (s.history_index + 1).toNat with ht
  by_cases hlen : 20 < (t ++ [e]).length
  · rw [if_pos hlen]
    have hlen' : 20 ≤ t.length + 1 := by
      simpa using Nat.le_of_lt hlen
    have hk : (t ++ [e]).length - 20 ≤ t.length := by
      simp only [List.length_append, List.length_singleton]
      omega
    refine ⟨?_, rfl, ?_, ⟨(t ++ [e]).length - 20, rfl⟩⟩
    · simp only [pyTailSlice, List.length_drop]
      omega
    · unfold pyTailSlice
      rw [List.drop_append_of_le_length hk, List.getLast?_concat]
  · rw [if_neg hlen]
    refine ⟨by simpa using Nat.le_of_not_lt hlen, rfl, List.getLast?_concat _, ⟨0, by simp⟩⟩

/-- Witness for C9 at the concrete post-click session `c4_s1`
(cursor 0, one entry). -/
theorem save_state_history_spec_witness :
    (save_state c4_s1).history.length ≤ 20 ∧
    (save_state c4_s1).history_index = ((save_state c4_s1).history.length : Int) - 1 ∧
    (save_state c4_s1).history.getLast? = some (snapshotEntry c4_s1) ∧
    ∃ k, (save_state c4_s1).history =
      (c4_s1.history.take (c4_s1.history_index + 1).toNat ++ [snapshotEntry c4_s1]).drop k :=
  save_state_history_spec c4_s1 (by decide)

/-- C10.  The sail check indexes face entries 0–3 of every type-3 cell
with no length guard: evaluation succeeds exactly when every type-3
cell carries at least four face entries, and a grid with a shorter face
array (here length 1) makes the evaluation err. -/
theorem sail_evaluation_total_iff :
    (∀ bs : BlockSet, (check_sail bs).isSome = true ↔
       ∀ b ∈ bs.blocks, b.type = 3 → 4 ≤ b.detailed_information.length) ∧
    check_sail sail_short_faces_bs = none := by
  refine ⟨fun bs => ?_, by decide⟩
  rw [check_sail_isSome, sail_nodes_isSome]
  exact forall₂_congr (fun b _ => cell_sail_nodes_isSome b)

/-! ### C5: the flag/set agreement invariant across operations -/

/-- The invariant through the `[i]?` lens, convenient for the
preservation proofs. -/
theorem flags_match_iff (bs : BlockSet) :
    flags_match_selection bs ↔
      ∀ i b, bs.blocks[i]? = some b → (b.selected = true ↔ i ∈ bs.selected_blocks) := by
  unfold flags_match_selection
  constructor
  · intro h i b hib
    obtain ⟨hlt, hb⟩ := List.getElem?_eq_some.mp hib
    rw [← hb]
    exact h i hlt
  · intro h i hlt
    exact h i _ (List.getElem?_eq_getElem hlt)

theorem flags_match_select_block (s : SessionState) (i : Nat)
    (h : flags_match_selection s.bs) : flags_match_selection (select_block s i).bs := by
  unfold select_block
  by_cases hi : i < s.bs.blocks.length
  · rw [if_pos hi, save_state_bs]
    rw [flags_match_iff] at h ⊢
    intro j b hjb
    simp only [getElem?_list_modify] at hjb
    by_cases hji : j = i
    · subst hji
      rw [if_pos rfl] at hjb
      obtain ⟨b0, hb0, hfb⟩ := Option.map_eq_some'.mp hjb
      rw [← hfb]
      simp only [true_iff]
      by_cases hc : s.bs.selected_blocks.contains j
      · rw [if_pos hc]
        exact List.elem_iff.mp hc
      · rw [if_neg hc]
        exact List.mem_append.mpr (Or.inr (List.mem_singleton.mpr rfl))
    · rw [if_neg hji] at hjb
      rw [h j b hjb]
      by_cases hc : s.bs.selected_blocks.contains i
      · rw [if_pos hc]
      · rw [if_neg hc]
        constructor
        · exact fun hm => List.mem_append.mpr (Or.inl hm)
        · intro hm
          rcases List.mem_append.mp hm with hm' | hm'
          · exact hm'
          · exact absurd (List.mem_singleton.mp hm') hji
  · rw [if_neg hi]
    exact h

theorem flags_match_deselect_block (s : SessionState) (i : Nat)
    (h : flags_match_selection s.bs) : flags_match_selection (deselect_block s i).bs := by
  unfold deselect_block
  by_cases hc : s.bs.selected_blocks.contains i
  · rw [if_pos hc, save_state_bs]
    rw [flags_match_iff] at h ⊢
    intro j b hjb
    simp only [getElem?_list_modify] at hjb
    by_cases hji : j = i
    · subst hji
      rw [if_pos rfl] at hjb
      obtain ⟨b0, hb0, hfb⟩ := Option.map_eq_some'.mp hjb
      rw [← hfb]
      simp only [Bool.false_eq_true, false_iff]
      intro hm
      exact absurd rfl (bne_iff_ne.mp (List.mem_filter.mp hm).2)
    · rw [if_neg hji] at hjb
      rw [h j b hjb]
      constructor
      · exact fun hm => List.mem_filter.mpr ⟨hm, bne_iff_ne.mpr hji⟩
      · exact fun hm => (List.mem_filter.mp hm).1
  · rw [if_neg hc]
    exact h

theorem flags_match_toggle_cell (s : SessionState) (p : Int × Int)
    (h : flags_match_selection s.bs) : flags_match_selection (toggle_cell s p).bs := by
  unfold toggle_cell
  cases find_block_index s.bs.blocks p with
  | none => exact h
  | some i =>
    by_cases hc : s.bs.selected_blocks.contains i
    · simp only [hc, if_true]
      exact flags_match_deselect_block s i h
    · simp only [hc, Bool.false_eq_true, if_false]
      exact flags_match_select_block s i h

theorem flags_match_select_area (s : SessionState) (a b : Int × Int)
    (h : flags_match_selection s.bs) :
    flags_match_selection (select_blocks_in_area s a b).bs := by
  unfold select_blocks_in_area
  generalize List.range s.bs.blocks.length = L
  induction L generalizing s with
  | nil => exact h
  | cons x xs ih =>
    rw [List.foldl_cons]
    apply ih
    cases hx : s.bs.blocks[x]? with
    | none => simpa [hx] using h
    | some c =>
      simp only [hx]
      split
      · exact flags_match_select_block s x h
      · exact h

theorem flags_match_clear_selection (s : SessionState)
    (h : flags_match_selection s.bs) : flags_match_selection (clear_selection s).bs := by
  rw [clear_selection_bs]
  rw [flags_match_iff] at h ⊢
  intro j b hjb
  simp only [getElem?_list_map_idx] at hjb
  obtain ⟨b0, hb0, hfb⟩ := Option.map_eq_some'.mp hjb
  simp only [List.not_mem_nil, iff_false]
  intro hflag
  by_cases hc : s.bs.selected_blocks.contains j
  · rw [if_pos hc] at hfb
    rw [← hfb] at hflag
    exact Bool.noConfusion hflag
  · rw [if_neg hc] at hfb
    rw [hfb] at hb0
    have := (h j b hb0).mp hflag
    exact hc (List.elem_eq_true_of_mem this)

theorem confirm_click_bs (s s' : SessionState) (cs : List String)
    (h : handle_confirm_click s cs = some s') : s'.bs = s.bs := by
  unfold handle_confirm_click at h
  cases hr : check_constraints s.bs cs "selection" with
  | none => rw [hr] at h; exact absurd h (by simp)
  | some r =>
    rw [hr] at h
    simp only [Option.bind_eq_bind, Option.some_bind] at h
    by_cases hf : (failed_names r).isEmpty
    · rw [if_pos hf] at h
      by_cases hs : ({ s with selection_confirmed := true, failed_constraints := [] }
          : SessionState).bs.selected_blocks.isEmpty
      · rw [if_pos hs] at h
        rw [← Option.some.inj h]
      · rw [if_neg hs] at h
        rw [← Option.some.inj h]
        exact save_state_bs { s with selection_confirmed := true, failed_constraints := [] }
    · rw [if_neg hf] at h
      rw [← Option.some.inj h]

theorem flags_match_confirm (s s' : SessionState) (cs : List String)
    (hc : handle_confirm_click s cs = some s')
    (h : flags_match_selection s.bs) : flags_match_selection s'.bs := by
  rw [confirm_click_bs s s' cs hc]
  exact h

theorem flags_match_start_drag (s : SessionState)
    (h : flags_match_selection s.bs) : flags_match_selection (start_drag s).bs := by
  unfold start_drag
  by_cases he : ({ s with dragging := true, drag_start_set := true, drag_end_set := true }
      : SessionState).bs.selected_blocks.isEmpty
  · rw [if_pos he]
    exact h
  · rw [if_neg he]
    rw [flags_match_iff] at h ⊢
    intro j b hjb
    simp only [getElem?_list_map_idx] at hjb
    obtain ⟨b0, hb0, hfb⟩ := Option.map_eq_some'.mp hjb
    by_cases hc : s.bs.selected_blocks.contains j
    · rw [if_pos hc] at hfb
      rw [← hfb]
      simp only [true_iff]
      exact List.elem_iff.mp hc
    · rw [if_neg hc] at hfb
      rw [hfb] at hb0
      rw [h j b hb0]

theorem update_drag_bs (s s' : SessionState) (g : Int × Int)
    (h : update_drag s g = some s') : s'.bs = s.bs := by
  unfold update_drag at h
  by_cases hcond : (!s.moving_blocks || !s.move_start_set ||
      (s.original_positions.getD []).isEmpty) = true
  · rw [if_pos hcond] at h
    rw [← Option.some.inj h]
  · rw [if_neg hcond] at h
    cases ho : s.original_positions with
    | none => rw [ho] at h; exact absurd h (by simp)
    | some orig =>
      rw [ho] at h
      simp only [Option.bind_eq_bind, Option.some_bind] at h
      obtain ⟨v, _, h⟩ := Option.bind_eq_some.mp h
      obtain ⟨temp, _, h⟩ := Option.bind_eq_some.mp h
      obtain ⟨temp', _, h⟩ := Option.bind_eq_some.mp h
      rw [← Option.some.inj h]

theorem flags_match_update_drag (s s' : SessionState) (g : Int × Int)
    (hu : update_drag s g = some s')
    (h : flags_match_selection s.bs) : flags_match_selection s'.bs := by
  rw [update_drag_bs s s' g hu]
  exact h

/-- The grid after `reset_level`, as one equation. -/
theorem reset_level_bs (st : SessionState) :
    (reset_level st).bs = ⟨list_map_idx
      (st.bs.blocks.map (fun c => { c with pos := c.original_pos }))
      (fun j b => if st.bs.selected_blocks.contains j then { b with selected := false } else b),
      []⟩ := by
  show (clear_selection { st with bs := { st.bs with
    blocks := st.bs.blocks.map (fun b => { b with pos := b.original_pos }) } }).bs = _
  rw [clear_selection_bs]

theorem flags_match_reset (s : SessionState)
    (h : flags_match_selection s.bs) : flags_match_selection (reset_level s).bs := by
  rw [reset_level_bs]
  rw [flags_match_iff] at h ⊢
  intro j b hjb
  simp only [getElem?_list_map_idx, List.getElem?_map] at hjb
  simp only [List.not_mem_nil, iff_false]
  intro hflag
  cases hb0 : s.bs.blocks[j]? with
  | none => rw [hb0] at hjb; exact absurd hjb (by simp)
  | some b0 =>
    rw [hb0] at hjb
    simp only [Option.map_some'] at hjb
    by_cases hc : s.bs.selected_blocks.contains j
    · rw [if_pos hc] at hjb
      rw [← Option.some.inj hjb] at hflag
      exact Bool.noConfusion hflag
    · rw [if_neg hc] at hjb
      rw [← Option.some.inj hjb] at hflag
      have hsel0 : b0.selected = true := hflag
      have := (h j b0 hb0).mp hsel0
      exact hc (List.elem_eq_true_of_mem this)

/-- Membership in the selection after `_restore_state`'s resync loop:
indices below the processed range follow the snapshot's flag, the rest
keep their previous membership. -/
theorem restore_fold_mem_spec (e : List ((Int × Int) × Bool)) (sel : List Nat) :
    ∀ m, m ≤ e.length → ∀ j,
      (j ∈ (List.range m).foldl (fun (acc : List Nat) i =>
        match e[i]? with
        | some (_, true) => if acc.contains i then acc else acc ++ [i]
        | some (_, false) => acc.filter (fun k => k != i)
        | none => acc) sel ↔
      (if j < m then (e.getD j ((0, 0), false)).2 = true else j ∈ sel)) := by
  intro m
  induction m with
  | zero =>
    intro _ j
    simp
  | succ n ih =>
    intro hm j
    have hnlt : n < e.length := hm
    have hle : n ≤ e.length := Nat.le_of_lt hnlt
    have ihj := ih hle j
    rw [List.range_succ, List.foldl_append, List.foldl_cons, List.foldl_nil]
    generalize hF : List.foldl (fun (acc : List Nat) i =>
        match e[i]? with
        | some (_, true) => if acc.contains i then acc else acc ++ [i]
        | some (_, false) => acc.filter (fun k => k != i)
        | none => acc) sel (List.range n) = F at ihj ⊢
    have hget : e[n]? = some e[n] := List.getElem?_eq_getElem hnlt
    rcases hpr : e[n] with ⟨p, flag⟩
    rw [hget, hpr]
    have hD : e.getD n ((0, 0), false) = (p, flag) := by
      rw [List.getD_eq_getElem?_getD, hget, Option.getD_some, hpr]
    by_cases hej : j < n + 1
    · rw [if_pos hej]
      by_cases hjn : j = n
      · subst hjn
        rw [hD]
        cases flag with
        | true =>
          simp only [iff_true]
          by_cases hc : F.contains j
          · rw [if_pos hc]
            exact List.elem_iff.mp hc
          · rw [if_neg hc]
            exact List.mem_append.mpr (Or.inr (List.mem_singleton.mpr rfl))
        | false =>
          simp only [Bool.false_eq_true, iff_false]
          intro hmem
          exact absurd rfl (bne_iff_ne.mp (List.mem_filter.mp hmem).2)
      · have hjlt : j < n := Nat.lt_of_le_of_ne (Nat.lt_succ_iff.mp hej) hjn
        rw [if_pos hjlt] at ihj
        rw [← ihj]
        cases flag with
        | true =>
          dsimp only
          by_cases hc : F.contains n
          · rw [if_pos hc]
          · rw [if_neg hc]
            constructor
            · intro hmem
              rcases List.mem_append.mp hmem with hm' | hm'
              · exact hm'
              · exact absurd (List.mem_singleton.mp hm') hjn
            · exact fun hmem => List.mem_append.mpr (Or.inl hmem)
        | false =>
          dsimp only
          constructor
          · exact fun hmem => (List.mem_filter.mp hmem).1
          · exact fun hmem => List.mem_filter.mpr ⟨hmem, bne_iff_ne.mpr hjn⟩
    · rw [if_neg hej]
      have hjn : j ≠ n := fun hj => hej (hj ▸ Nat.lt_succ_self n)
      have hjge : ¬ j < n := fun hj => hej (Nat.lt_succ_of_lt hj)
      rw [if_neg hjge] at ihj
      rw [← ihj]
      cases flag with
      | true =>
        dsimp only
        by_cases hc : F.contains n
        · rw [if_pos hc]
        · rw [if_neg hc]
          constructor
          · intro hmem
            rcases List.mem_append.mp hmem with hm' | hm'
            · exact hm'
            · exact absurd (List.mem_singleton.mp hm') hjn
          · exact fun hmem => List.mem_append.mpr (Or.inl hmem)
      | false =>
        dsimp only
        constructor
        · exact fun hmem => (List.mem_filter.mp hmem).1
        · exact fun hmem => List.mem_filter.mpr ⟨hmem, bne_iff_ne.mpr hjn⟩

theorem flags_match_restore (st : SessionState) (e : HEntry)
    (h : flags_match_selection st.bs) :
    flags_match_selection (restore_state st e).bs := by
  unfold restore_state
  rw [flags_match_iff] at h ⊢
  intro j b hjb
  simp only [getElem?_list_map_idx] at hjb
  obtain ⟨b0, hb0, hfb⟩ := Option.map_eq_some'.mp hjb
  have hjlen : j < st.bs.blocks.length := (List.getElem?_eq_some.mp hb0).1
  have hmlen : min e.blocks_state.length st.bs.blocks.length ≤ e.blocks_state.length :=
    Nat.min_le_left _ _
  rw [restore_fold_mem_spec e.blocks_state st.bs.selected_blocks _ hmlen j]
  cases hej : e.blocks_state[j]? with
  | none =>
    simp only [hej] at hfb
    have hge : ¬ j < e.blocks_state.length := by
      intro hlt
      rw [List.getElem?_eq_getElem hlt] at hej
      cases hej
    rw [if_neg (by omega : ¬ j < min e.blocks_state.length st.bs.blocks.length)]
    rw [← hfb]
    exact h j b0 hb0
  | some pr =>
    rcases pr with ⟨p, flag⟩
    simp only [hej] at hfb
    have helt : j < e.blocks_state.length := (List.getElem?_eq_some.mp hej).1
    rw [if_pos (by omega : j < min e.blocks_state.length st.bs.blocks.length)]
    have hD : e.blocks_state.getD j ((0, 0), false) = (p, flag) := by
      rw [List.getD_eq_getElem?_getD, hej, Option.getD_some]
    rw [hD, ← hfb]

theorem flags_match_undo (s : SessionState)
    (h : flags_match_selection s.bs) : flags_match_selection (undo s).bs := by
  unfold undo
  by_cases hc : (0 : Int) < s.history_index
  · rw [if_pos hc]
    exact flags_match_restore { s with history_index := s.history_index - 1 } _ h
  · rw [if_neg hc]
    exact h

theorem flags_match_redo (s : SessionState)
    (h : flags_match_selection s.bs) : flags_match_selection (redo s).bs := by
  unfold redo
  by_cases hc : s.history_index < (s.history.length : Int) - 1
  · rw [if_pos hc]
    exact flags_match_restore { s with history_index := s.history_index + 1 } _ h
  · rw [if_neg hc]
    exact h

/-- `end_drag`'s revert loop (first is_valid false): positions are
rewritten, but the selection set, block count and bookkeeping fields are
untouched. -/
theorem pos_fold_spec (orig : List (Int × Int)) :
    ∀ (L : List (Nat × Nat)) (st res : SessionState),
      L.foldlM (fun st ki => do
        let p ← orig[ki.1]?
        pure { st with bs := { st.bs with
          blocks := list_modify st.bs.blocks ki.2 (fun b => { b with pos := p }) } }) st
        = some res →
      res.bs.selected_blocks = st.bs.selected_blocks ∧
      res.bs.blocks.length = st.bs.blocks.length ∧
      res.original_colors = st.original_colors
  | [], st, res, h => by
    rw [List.foldlM_nil] at h
    have he : st = res := Option.some.inj h
    subst he
    exact ⟨rfl, rfl, rfl⟩
  | ki :: L', st, res, h => by
    rw [List.foldlM_cons] at h
    simp only [Option.bind_eq_bind] at h
    obtain ⟨st', hstep, hrest⟩ := Option.bind_eq_some.mp h
    obtain ⟨p, _, hpure⟩ := Option.bind_eq_some.mp hstep
    have hst' : st' = { st with bs := { st.bs with
        blocks := list_modify st.bs.blocks ki.2 (fun b => { b with pos := p }) } } :=
      (Option.some.inj hpure).symm
    obtain ⟨h1, h2, h3⟩ := pos_fold_spec orig L' st' res hrest
    subst hst'
    refine ⟨h1, ?_, h3⟩
    rw [h2]
    exact length_list_modify _ _ _

/-- `end_drag`'s apply/restore loop (the final pass): the selection set
and block count are unchanged, a false selected-flag stays false, and
every index appearing in the processed pair list (within the colour
list's length) ends with its selected flag false. -/
theorem apply_fold_spec (colors : List (Nat × Nat × Nat)) (valid2 : Bool)
    (tmp : Option (List Block)) (origp : Option (List (Int × Int))) :
    ∀ (L : List (Nat × Nat)) (st res : SessionState),
      L.foldlM (fun st ki => do
        if ki.1 < colors.length then do
          let c := colors.getD ki.1 (0, 0, 0)
          let newPos ←
            if valid2 then do
              let temp ← tmp
              (temp[ki.1]?).map (·.pos)
            else do
              let orig ← origp
              orig[ki.1]?
          pure { st with bs := { st.bs with
            blocks := list_modify st.bs.blocks ki.2 (fun b =>
              { b with color := c, pos := newPos, selected := false, ghost := false }) } }
        else pure st) st = some res →
      res.bs.selected_blocks = st.bs.selected_blocks ∧
      res.bs.blocks.length = st.bs.blocks.length ∧
      (∀ (i : Nat) (b : Block), st.bs.blocks[i]? = some b → b.selected = false →
        ∀ b' : Block, res.bs.blocks[i]? = some b' → b'.selected = false) ∧
      (∀ (k i : Nat), (k, i) ∈ L → k < colors.length →
        ∀ b' : Block, res.bs.blocks[i]? = some b' → b'.selected = false)
  | [], st, res, h => by
    rw [List.foldlM_nil] at h
    have he : st = res := Option.some.inj h
    subst he
    refine ⟨rfl, rfl, ?_, ?_⟩
    · intro i b hb hbf b' hb'
      rw [hb'] at hb
      rw [Option.some.inj hb]
      exact hbf
    · intro k i hk
      exact absurd hk (List.not_mem_nil _)
  | ki :: L', st, res, h => by
    rw [List.foldlM_cons] at h
    simp only [Option.bind_eq_bind] at h
    obtain ⟨st', hstep, hrest⟩ := Option.bind_eq_some.mp h
    obtain ⟨hs1, hs2, hs3, hs4⟩ := apply_fold_spec colors valid2 tmp origp L' st' res hrest
    by_cases hk : ki.1 < colors.length
    · rw [if_pos hk] at hstep
      have hex : ∃ np : Int × Int, st' = { st with bs := { st.bs with
          blocks := list_modify st.bs.blocks ki.2 (fun b =>
            { b with color := colors.getD ki.1 (0, 0, 0), pos := np,
                     selected := false, ghost := false }) } } := by
        cases valid2 with
        | true =>
          rw [if_pos rfl] at hstep
          obtain ⟨temp, _, hstep⟩ := Option.bind_eq_some.mp hstep
          obtain ⟨np, _, hpure⟩ := Option.bind_eq_some.mp hstep
          exact ⟨np, (Option.some.inj hpure).symm⟩
        | false =>
          rw [if_neg Bool.false_ne_true] at hstep
          obtain ⟨orig, _, hstep⟩ := Option.bind_eq_some.mp hstep
          obtain ⟨np, _, hpure⟩ := Option.bind_eq_some.mp hstep
          exact ⟨np, (Option.some.inj hpure).symm⟩
      obtain ⟨np, hst'⟩ := hex
      have hmod : ∀ (j : Nat) (b' : Block), st'.bs.blocks[j]? = some b' →
          (b'.selected = false ∨
            (∃ b, st.bs.blocks[j]? = some b ∧ b' = b ∧ j ≠ ki.2)) := by
        intro j b' hb'
        rw [hst'] at hb'
        simp only [getElem?_list_modify] at hb'
        by_cases hj : j = ki.2
        · rw [if_pos hj] at hb'
          obtain ⟨b0, _, hfb⟩ := Option.map_eq_some'.mp hb'
          left
          rw [← hfb]
        · rw [if_neg hj] at hb'
          exact Or.inr ⟨b', hb', rfl, hj⟩
      have hlen' : st'.bs.blocks.length = st.bs.blocks.length := by
        rw [hst']
        exact length_list_modify _ _ _
      have hsel' : st'.bs.selected_blocks = st.bs.selected_blocks := by rw [hst']
      have hpreserve : ∀ (i : Nat) (b : Block), st.bs.blocks[i]? = some b →
          b.selected = false →
          ∀ b' : Block, res.bs.blocks[i]? = some b' → b'.selected = false := by
        intro i b hb hbf b' hb'
        cases hbs' : st'.bs.blocks[i]? with
        | none =>
          have hi : i < st.bs.blocks.length := (List.getElem?_eq_some.mp hb).1
          have hi' : i < st'.bs.blocks.length := by rw [hlen']; exact hi
          rw [List.getElem?_eq_getElem hi'] at hbs'
          cases hbs'
        | some bmid =>
          rcases hmod i bmid hbs' with hf | ⟨b2, hb2, hbe, _⟩
          · exact hs3 i bmid hbs' hf b' hb'
          · rw [hb2] at hb
            have : b2 = b := Option.some.inj hb
            subst this
            subst hbe
            exact hs3 i bmid hbs' hbf b' hb'
      refine ⟨hs1.trans hsel', hs2.trans hlen', hpreserve, ?_⟩
      intro k i hkmem hkc b' hb'
      rcases List.mem_cons.mp hkmem with heq | hmem'
      · have hki : ki.2 = i := congrArg Prod.snd heq.symm
        subst hki
        cases hbi : st.bs.blocks[ki.2]? with
        | none =>
          have hge : ¬ ki.2 < st.bs.blocks.length := by
            intro hlt
            rw [List.getElem?_eq_getElem hlt] at hbi
            cases hbi
          have : ki.2 < st.bs.blocks.length := by
            have := (List.getElem?_eq_some.mp hb').1
            rw [hs2, hlen'] at this
            exact this
          exact absurd this hge
        | some b0 =>
          have hlt : ki.2 < st.bs.blocks.length := (List.getElem?_eq_some.mp hbi).1
          have hmid : st'.bs.blocks[ki.2]? = some { b0 with
              color := colors.getD ki.1 (0, 0, 0), pos := np,
              selected := false, ghost := false } := by
            rw [hst']
            simp only [getElem?_list_modify, if_pos rfl, hbi, Option.map_some', if_true]
          exact hs3 ki.2 _ hmid rfl b' hb'
      · exact hs4 k i hmem' hkc b' hb'
    · rw [if_neg hk] at hstep
      have hst' : st' = st := (Option.some.inj hstep).symm
      subst hst'
      refine ⟨hs1, hs2, hs3, ?_⟩
      intro k i hkmem hkc b' hb'
      rcases List.mem_cons.mp hkmem with heq | hmem'
      · have : k = ki.1 := congrArg Prod.fst heq
        rw [this] at hkc
        exact absurd hkc hk
      · exact hs4 k i hmem' hkc b' hb'

/-- A successful `end_drag` while the selection is confirmed keeps the
selected set and the block count, but every selected cell comes out with
its `selected` flag cleared (the apply/restore pass writes
`selected = False` unconditionally). -/
theorem end_drag_clears_flags (s : SessionState) (g : Int × Int)
    (area : (Int × Int) × (Int × Int)) (cl : List (Nat × Nat × Nat)) (s' : SessionState)
    (hconf : s.selection_confirmed = true)
    (hcol : s.original_colors = some cl)
    (hlen : s.bs.selected_blocks.length ≤ cl.length)
    (hend : end_drag s g area = some s') :
    s'.bs.selected_blocks = s.bs.selected_blocks ∧
    s'.bs.blocks.length = s.bs.blocks.length ∧
    (∀ i ∈ s'.bs.selected_blocks,
      ∀ b : Block, s'.bs.blocks[i]? = some b → b.selected = false) := by
  unfold end_drag at hend
  simp only [Option.bind_eq_bind] at hend
  obtain ⟨v1, hv1, hend⟩ := Option.bind_eq_some.mp hend
  obtain ⟨s2, hs2, hend⟩ := Option.bind_eq_some.mp hend
  obtain ⟨v2, hv2, hend⟩ := Option.bind_eq_some.mp hend
  obtain ⟨s4, hs4, hend⟩ := Option.bind_eq_some.mp hend
  have hsf : s' = { s4 with dragging := false, moving_blocks := false, drag_start_set := false, drag_end_set := false, move_start_set := false, original_positions := none, temp_blocks := none } := (Option.some.inj hend).symm
  have hstep2 : s2.bs.selected_blocks = s.bs.selected_blocks ∧
      s2.bs.blocks.length = s.bs.blocks.length ∧
      s2.original_colors = s.original_colors := by
    unfold ed_revert at hs2
    cases v1 with
    | true =>
      rw [if_neg (by simp)] at hs2
      rw [hconf] at hs2
      simp only [Bool.not_true, Bool.and_false] at hs2
      rw [if_neg Bool.false_ne_true] at hs2
      have : s = s2 := Option.some.inj hs2
      rw [← this]
      exact ⟨rfl, rfl, rfl⟩
    | false =>
      simp only [Bool.not_false, eq_self_iff_true, if_true] at hs2
      by_cases hemp : s.bs.selected_blocks.isEmpty = true
      · rw [if_pos hemp] at hs2
        have : s = s2 := Option.some.inj hs2
        rw [← this]
        exact ⟨rfl, rfl, rfl⟩
      · rw [if_neg hemp] at hs2
        simp only [Option.bind_eq_bind] at hs2
        obtain ⟨orig, _, hfold⟩ := Option.bind_eq_some.mp hs2
        exact pos_fold_spec orig _ s s2 hfold
  obtain ⟨hsel2, hlen2, hcol2⟩ := hstep2
  have hbs' : s'.bs = s4.bs := by rw [hsf]
  unfold ed_apply at hs4
  by_cases hemp2 : s2.bs.selected_blocks.isEmpty = true
  · rw [if_neg (by rw [hemp2]; simp)] at hs4
    have h42 : s2 = s4 := Option.some.inj hs4
    have hnil : s2.bs.selected_blocks = [] := List.isEmpty_iff.mp hemp2
    refine ⟨by rw [hbs', ← h42, hsel2], by rw [hbs', ← h42, hlen2], ?_⟩
    intro i hi
    rw [hbs', ← h42, hnil] at hi
    exact absurd hi (List.not_mem_nil _)
  · have hcond : (!s2.bs.selected_blocks.isEmpty && s2.original_colors.isSome) = true := by
      rw [hcol2, hcol]
      rw [Bool.eq_false_iff.mpr hemp2]
      rfl
    rw [if_pos hcond] at hs4
    dsimp only at hs4
    obtain ⟨hs1, hslen, _, hnew⟩ := apply_fold_spec (s2.original_colors.getD [])
      v2 s2.temp_blocks s2.original_positions s2.bs.selected_blocks.enum s2 s4 hs4
    refine ⟨by rw [hbs', hs1, hsel2], by rw [hbs', hslen, hlen2], ?_⟩
    intro i hi b hb
    rw [hbs', hs1] at hi
    obtain ⟨k, hk⟩ := mem_enum_of_mem s2.bs.selected_blocks 0 hi
    have hkb : k < s2.bs.selected_blocks.length := by
      have := (List.mem_enumFrom hk).2.1
      simpa using this
    have hkc : k < (s2.original_colors.getD []).length := by
      rw [hcol2, hcol]
      calc k < s2.bs.selected_blocks.length := hkb
        _ = s.bs.selected_blocks.length := by rw [hsel2]
        _ ≤ cl.length := hlen
    rw [hbs'] at hb
    exact hnew k i hk hkc b hb

/-- C5: the flag/set agreement invariant (`flags_match_selection`) is
preserved by SelectCell, DeselectCell, ToggleCell, AreaSelect,
ClearSelection, ConfirmSelection, BeginDrag, UpdateDrag, Reset, Undo and
Redo — but not by EndDrag: a successful EndDrag during the Moving phase
keeps the selected set while clearing every member's `selected` flag, so
with a nonempty in-range selection the invariant fails afterwards. -/
theorem selection_invariant_per_operation :
    (∀ (s : SessionState) (i : Nat), flags_match_selection s.bs →
      flags_match_selection (select_block s i).bs) ∧
    (∀ (s : SessionState) (i : Nat), flags_match_selection s.bs →
      flags_match_selection (deselect_block s i).bs) ∧
    (∀ (s : SessionState) (p : Int × Int), flags_match_selection s.bs →
      flags_match_selection (toggle_cell s p).bs) ∧
    (∀ (s : SessionState) (a b : Int × Int), flags_match_selection s.bs →
      flags_match_selection (select_blocks_in_area s a b).bs) ∧
    (∀ s : SessionState, flags_match_selection s.bs →
      flags_match_selection (clear_selection s).bs) ∧
    (∀ (s s' : SessionState) (cs : List String), handle_confirm_click s cs = some s' →
      flags_match_selection s.bs → flags_match_selection s'.bs) ∧
    (∀ s : SessionState, flags_match_selection s.bs →
      flags_match_selection (start_drag s).bs) ∧
    (∀ (s s' : SessionState) (g : Int × Int), update_drag s g = some s' →
      flags_match_selection s.bs → flags_match_selection s'.bs) ∧
    (∀ s : SessionState, flags_match_selection s.bs →
      flags_match_selection (reset_level s).bs) ∧
    (∀ s : SessionState, flags_match_selection s.bs →
      flags_match_selection (undo s).bs) ∧
    (∀ s : SessionState, flags_match_selection s.bs →
      flags_match_selection (redo s).bs) ∧
    (∀ (s s' : SessionState) (g : Int × Int) (area : (Int × Int) × (Int × Int))
      (cl : List (Nat × Nat × Nat)),
      s.selection_confirmed = true →
      s.original_colors = some cl →
      s.bs.selected_blocks.length ≤ cl.length →
      end_drag s g area = some s' →
      s'.bs.selected_blocks = s.bs.selected_blocks ∧
      (∀ i ∈ s'.bs.selected_blocks,
        ∀ b : Block, s'.bs.blocks[i]? = some b → b.selected = false) ∧
      ((∃ i ∈ s.bs.selected_blocks, i < s.bs.blocks.length) →
        ¬ flags_match_selection s'.bs)) := by
  refine ⟨fun s i h => flags_match_select_block s i h,
    fun s i h => flags_match_deselect_block s i h,
    fun s p h => flags_match_toggle_cell s p h,
    fun s a b h => flags_match_select_area s a b h,
    fun s h => flags_match_clear_selection s h,
    fun s s' cs hc h => flags_match_confirm s s' cs hc h,
    fun s h => flags_match_start_drag s h,
    fun s s' g hu h => flags_match_update_drag s s' g hu h,
    fun s h => flags_match_reset s h,
    fun s h => flags_match_undo s h,
    fun s h => flags_match_redo s h,
    ?_⟩
  intro s s' g area cl hconf hcol hlen hend
  obtain ⟨hsel, hblen, hflags⟩ := end_drag_clears_flags s g area cl s' hconf hcol hlen hend
  refine ⟨hsel, hflags, ?_⟩
  rintro ⟨i, hi, hilt⟩ hmatch
  have hi' : i ∈ s'.bs.selected_blocks := by rw [hsel]; exact hi
  have hlt' : i < s'.bs.blocks.length := by rw [hblen]; exact hilt
  have htrue : (s'.bs.blocks.get ⟨i, hlt'⟩).selected = true := (hmatch i hlt').mpr hi'
  have hsome : s'.bs.blocks[i]? = some (s'.bs.blocks.get ⟨i, hlt'⟩) :=
    List.getElem?_eq_getElem hlt'
  have hfalse := hflags i hi' _ hsome
  rw [htrue] at hfalse
  exact Bool.noConfusion hfalse

/-- C5 counterexample: in the concrete one-cell session, after
ToggleCell, a successful ConfirmSelection and BeginDrag, the in-place
EndDrag succeeds but leaves cell 0 in the selected set with its
`selected` flag cleared, breaking the flag/set agreement. -/
theorem end_drag_breaks_selection_invariant :
    flags_match_selection c5_pre.bs ∧
    (end_drag c5_pre (0, 0) ((0, 0), (0, 0))).isSome = true ∧
    ¬ flags_match_selection c5_post.bs := by decide

/-- Witness for C5: the preservation clause for SelectCell applied to a
concrete one-cell session. -/
theorem selection_invariant_per_operation_witness :
    flags_match_selection (select_block (initState [mkBlock 1 (0, 0)]) 0).bs :=
  selection_invariant_per_operation.1 (initState [mkBlock 1 (0, 0)]) 0 (by decide)

end BSP
